import Mathlib

/-!
Shallow embedding of the audit-analysis backend (Python) in Lean 4.

Each definition is translated from a named function of the source tree:
  src/backend/app/utils/scoring.py
  src/backend/app/utils/security_headers.py
  src/backend/app/core/rate_limit.py
  src/backend/app/services/report_builder.py
  src/backend/app/services/audit_runner.py

Python ints are modelled as `Int` (arbitrary precision), Python datetimes
as rational numbers of seconds, Python sets of strings as duplicate-free
lists grown by insert-if-absent, and fallible browser/network operations
as an explicit environment record resolving each effect.
-/

namespace Audit

/-! ## scoring.py -/

/-- Translation of `calculate_score` (src/backend/app/utils/scoring.py).
Python's `min`/`max` on ints become `min`/`max` on `Int`. -/
def calculate_score (console_errors network_failures ui_errors security_issues
    accessibility_violations slow_endpoints : Int) : Int :=
  let score : Int := 100
  let console_penalty := min (console_errors * 2) 20
  let score := score - console_penalty
  let network_penalty := min (network_failures * 3) 20
  let score := score - network_penalty
  let ui_penalty := min (ui_errors * 4) 20
  let score := score - ui_penalty
  let security_penalty := min (security_issues * 3) 20
  let score := score - security_penalty
  let a11y_penalty := min accessibility_violations 10
  let score := score - a11y_penalty
  let perf_penalty := min slow_endpoints 10
  let score := score - perf_penalty
  max 0 score

/-- Translation of `get_grade` (src/backend/app/utils/scoring.py). -/
def get_grade (score : Int) : String :=
  if score ≥ 90 then "A"
  else if score ≥ 80 then "B"
  else if score ≥ 70 then "C"
  else if score ≥ 60 then "D"
  else "F"

end Audit

namespace Audit

/-! ## security_headers.py -/

/-- The keys of the `SECURITY_HEADERS` dict
(src/backend/app/utils/security_headers.py), in insertion order. -/
def SECURITY_HEADERS : List String :=
  ["Strict-Transport-Security", "Content-Security-Policy",
   "X-Content-Type-Options", "X-Frame-Options",
   "Referrer-Policy", "Permissions-Policy"]

/-- ASCII lowercase of a string, modelling Python `str.lower()` on the
ASCII header names involved. -/
def pyLower (s : String) : String := ⟨s.data.map Char.toLower⟩

/-- Translation of `check_security_headers`
(src/backend/app/utils/security_headers.py).  The HEAD request is
modelled by its outcome: `some hs` is a response carrying header names
`hs`; `none` is any raised exception (timeout included), in which case
the source logs and sets `missing` to the whole tracked set while
`present` keeps its initial empty value.  Returns (present, missing). -/
def check_security_headers (resp : Option (List String)) : List String × List String :=
  match resp with
  | none => ([], SECURITY_HEADERS)
  | some hs =>
    SECURITY_HEADERS.foldl
      (fun pm header =>
        let found := hs.any (fun h => pyLower h == pyLower header)
        if found then (pm.1 ++ [header], pm.2) else (pm.1, pm.2 ++ [header]))
      ([], [])

end Audit

namespace Audit

/-! ## rate_limit.py -/

/-- Translation of `RateLimiter._cleanup_old_requests`
(src/backend/app/core/rate_limit.py): keep only timestamps strictly
newer than `now` minus one minute.  Timestamps are rational seconds. -/
def cleanup_old_requests (now : ℚ) (ts : List ℚ) : List ℚ :=
  ts.filter (fun t => now - 60 < t)

/-- Translation of `RateLimiter.is_allowed`
(src/backend/app/core/rate_limit.py): prune the window, deny when the
pruned window has reached the per-minute limit, otherwise record `now`
and admit.  Returns (decision, stored timestamp list). -/
def is_allowed (limit : Nat) (now : ℚ) (ts : List ℚ) : Bool × List ℚ :=
  let ts := cleanup_old_requests now ts
  if limit ≤ ts.length then (false, ts)
  else (true, ts ++ [now])

/-- Folding `is_allowed` over a sequence of call instants, collecting
each decision and the final stored list. -/
def runCalls (limit : Nat) (st : List ℚ) : List ℚ → List Bool × List ℚ
  | [] => ([], st)
  | c :: rest =>
    let r := is_allowed limit c st
    let rec_ := runCalls limit r.2 rest
    (r.1 :: rec_.1, rec_.2)

end Audit

namespace Audit

/-! ## Data model (schemas.py)

Pydantic models become structures; enums become inductives; Python
`Optional` becomes `Option`; float durations become rationals. -/

/-- `AuditStatus` enum (src/backend/app/schemas.py). -/
inductive AuditStatus where
  | queued
  | running
  | done
  | error
deriving DecidableEq, Repr

/-- `Severity` enum (src/backend/app/schemas.py). -/
inductive Severity where
  | severityError
  | severityWarning
  | severityInfo
deriving DecidableEq, Repr

/-- `AuditOptions` (src/backend/app/schemas.py).  `max_pages` is
validated to 1..100 and `max_depth` to 1..5 by pydantic; modelled as
`Nat`.  `check_ui_flows` is not declared in the schema but is read by
the runner through `getattr(..., "check_ui_flows", False)`; it is
included here with the same read semantics. -/
structure AuditOptions where
  max_pages : Nat := 20
  max_depth : Nat := 2
  enable_form_submit : Bool := false
  include_accessibility : Bool := true
  screenshot_on_error : Bool := true
  check_ui_flows : Bool := false
deriving DecidableEq, Repr

/-- `AuditProgress` (src/backend/app/schemas.py). -/
structure AuditProgress where
  stage : String
  percent : Int
  current_url : Option String := none
  pages_visited : Int := 0
  errors_found : Int := 0
  message : Option String := none
deriving DecidableEq, Repr

/-- `ConsoleError` (src/backend/app/schemas.py). -/
structure ConsoleError where
  message : String
  location : Option String := none
  page_url : String
  severity : Severity
  stack : Option String := none
  timestamp : Option String := none
deriving DecidableEq, Repr

/-- `NetworkFailure` (src/backend/app/schemas.py). -/
structure NetworkFailure where
  url : String
  method : String
  status : Option Int := none
  error : Option String := none
  duration_ms : Option ℚ := none
  page_url : String
  resource_type : Option String := none
deriving DecidableEq, Repr

/-- `UIFlowResult` (src/backend/app/schemas.py); `status` is one of the
literal strings "ok", "error", "warning". -/
structure UIFlowResult where
  page_url : String
  status : String
  notes : Option String := none
  screenshot_path : Option String := none
  load_time_ms : Option ℚ := none
deriving DecidableEq, Repr

/-- `PageTiming` (src/backend/app/schemas.py). -/
structure PageTiming where
  url : String
  ttfb_ms : Option ℚ := none
  dom_content_loaded_ms : Option ℚ := none
  load_ms : Option ℚ := none
deriving DecidableEq, Repr

/-- `LargeAsset` (src/backend/app/schemas.py). -/
structure LargeAsset where
  url : String
  size_bytes : Int
  type : String
  page_url : String
deriving DecidableEq, Repr

/-- `SlowEndpoint` (src/backend/app/schemas.py). -/
structure SlowEndpoint where
  url : String
  method : String
  duration_ms : ℚ
  status : Option Int := none
deriving DecidableEq, Repr

/-- `CookieFlagIssue` (src/backend/app/schemas.py). -/
structure CookieFlagIssue where
  name : String
  domain : String
  issues : List String
deriving DecidableEq, Repr

/-- `SecurityHygiene` (src/backend/app/schemas.py). -/
structure SecurityHygiene where
  https_ok : Bool
  headers_present : List String := []
  headers_missing : List String := []
  cookie_flags_issues : List CookieFlagIssue := []
deriving DecidableEq, Repr

/-- `AccessibilityViolation` (src/backend/app/schemas.py). -/
structure AccessibilityViolation where
  id : String
  impact : String
  description : String
  help_url : Option String := none
  nodes_count : Int
  page_url : String
deriving DecidableEq, Repr

/-- `CategoryScore` (src/backend/app/schemas.py). -/
structure CategoryScore where
  category : String
  score : Int
  max_score : Int
  issues_count : Int
deriving DecidableEq, Repr

/-- The `AuditState` dataclass (src/backend/app/services/audit_runner.py).
`finished_at` is an `Optional[datetime]`; only whether it has been set is
relevant, so it is modelled by the flag `finished_at_set`.  Sets of URLs
are duplicate-free lists grown by insert-if-absent.  Artifact paths are
kept as plain strings. -/
structure AuditState where
  audit_id : String
  session_id : String
  url : String
  options : AuditOptions
  status : AuditStatus := .queued
  progress : AuditProgress := { stage := "initializing", percent := 0 }
  finished_at_set : Bool := false
  console_errors : List ConsoleError := []
  network_failures : List NetworkFailure := []
  ui_flows : List UIFlowResult := []
  page_timings : List PageTiming := []
  large_assets : List LargeAsset := []
  slow_endpoints : List SlowEndpoint := []
  security_hygiene : Option SecurityHygiene := none
  accessibility_violations : List AccessibilityViolation := []
  visited : List String := []
  discovered : List String := []
  total_requests : Int := 0
  error_message : Option String := none
  artifacts_dir : String := ""
  screenshots : List String := []
  preview_image_path : Option String := none
deriving DecidableEq, Repr

/-- `AuditManager.create_audit` (src/backend/app/services/audit_runner.py):
a fresh record with all dataclass defaults. -/
def initState (audit_id session_id url : String) (options : AuditOptions) : AuditState :=
  { audit_id := audit_id, session_id := session_id, url := url, options := options }

end Audit

namespace Audit

/-! ## URL parsing (urllib.parse.urlsplit)

The runner normalizes links with `urllib.parse.urlparse`.  The model
below reproduces CPython's `urlsplit` component split for the relevant
inputs: an optional scheme (text before the first ':' when it is
nonempty, starts with a letter and uses only scheme characters;
lowercased), a netloc after '//' running to the first of '/', '?', '#',
then the fragment split at the first '#' and the query at the first '?'.
(`urlparse` adds only a params split, which leaves `netloc` and the
query/fragment behaviour unchanged.) -/

/-- The characters CPython admits in a URL scheme. -/
def scheme_char (c : Char) : Bool :=
  c.isAlpha || c.isDigit || c == '+' || c == '-' || c == '.'

/-- Split a character list at the first occurrence of `c`: the part
before it, and `some` remainder after it when `c` occurs. -/
def splitOnFirst (c : Char) : List Char → List Char × Option (List Char)
  | [] => ([], none)
  | x :: rest =>
    if x == c then ([], some rest)
    else
      let r := splitOnFirst c rest
      (x :: r.1, r.2)

/-- The components returned by `urllib.parse.urlsplit`. -/
structure UrlParts where
  scheme : String
  netloc : String
  path : String
  query : String
  fragment : String
deriving DecidableEq, Repr

/-- A netloc terminator: `_splitnetloc` stops at '/', '?' or '#'. -/
def netloc_stop (c : Char) : Bool :=
  c == '/' || c == '?' || c == '#'

/-- The scheme step of `urlsplit`: when a ':' occurs after a nonempty
run of scheme characters starting with a letter, the lowercased run and
the remainder; otherwise no scheme and the whole input. -/
def parse_scheme (cs : List Char) : List Char × List Char :=
  let sres := splitOnFirst ':' cs
  match sres.2 with
  | some after =>
    match sres.1 with
    | [] => ([], cs)
    | c0 :: cs0 =>
      if c0.isAlpha && (c0 :: cs0).all scheme_char
      then ((c0 :: cs0).map Char.toLower, after)
      else ([], cs)
  | none => ([], cs)

/-- The netloc step of `urlsplit` (`_splitnetloc`): after a leading
'//', the run up to the first '/', '?' or '#'. -/
def parse_netloc (cs : List Char) : List Char × List Char :=
  match cs with
  | '/' :: '/' :: tail =>
    (tail.takeWhile (fun c => !netloc_stop c),
     tail.dropWhile (fun c => !netloc_stop c))
  | rest => ([], rest)

/-- Model of `urllib.parse.urlsplit` (see section comment). -/
def urlsplit (url : String) : UrlParts :=
  let spair := parse_scheme url.data
  let npair := parse_netloc spair.2
  let fres := splitOnFirst '#' npair.2
  let qres := splitOnFirst '?' fres.1
  { scheme := ⟨spair.1⟩, netloc := ⟨npair.1⟩, path := ⟨qres.1⟩,
    query := ⟨qres.2.getD []⟩, fragment := ⟨fres.2.getD []⟩ }

end Audit

namespace Audit

/-! ## Python string helpers used by the runner -/

/-- The ASCII whitespace stripped by Python `str.strip()`. -/
def py_isspace (c : Char) : Bool :=
  c == ' ' || c == '\t' || c == '\n' || c == '\r' || c == '\x0b' || c == '\x0c'

/-- Python `str.strip()` restricted to ASCII whitespace. -/
def py_strip (s : String) : String :=
  ⟨((s.data.dropWhile py_isspace).reverse.dropWhile py_isspace).reverse⟩

/-- `needle` occurs as a contiguous run inside `hay`. -/
def hasSub (hay needle : List Char) : Bool :=
  needle.isPrefixOf hay ||
    match hay with
    | [] => false
    | _ :: t => hasSub t needle

/-- The `ERROR_PATTERNS` list (src/backend/app/services/audit_runner.py);
every entry is a literal phrase, so `ERROR_REGEX` (their `|`-join compiled
with IGNORECASE) matches exactly when some phrase occurs case-insensitively. -/
def ERROR_PATTERNS : List String :=
  ["something went wrong", "error occurred", "page not found", "404",
   "500 internal server error", "access denied", "forbidden", "oops",
   "unexpected error"]

/-- `ERROR_REGEX.search(content) is not None`: some pattern occurs in the
ASCII-lowercased content (the patterns are already lowercase). -/
def error_regex_matches (content : String) : Bool :=
  ERROR_PATTERNS.any (fun p => hasSub (content.data.map Char.toLower) p.data)

/-- Insert-if-absent on a list modelling a Python set of strings. -/
def insertUniq (xs : List String) (x : String) : List String :=
  if x ∈ xs then xs else xs ++ [x]

end Audit

namespace Audit

/-! ## Browser/network environment

The runner's effects (Playwright calls, the out-of-band HEAD request)
are resolved by an explicit environment: each field gives the outcome
of one kind of operation.  `Option` failure values model raised
exceptions (`none`/`some msg` as the case may be). -/

/-- A cookie as returned by `context.cookies()`: the fields the runner
reads.  `sameSite` is `none` when the attribute is absent. -/
structure PwCookie where
  name : String
  domain : String
  secure : Bool
  httpOnly : Bool
  sameSite : Option String
deriving DecidableEq, Repr

/-- One raw axe-core violation as produced by the injected script:
`impact` may be null (modelled `none`) and is defaulted by the runner. -/
structure AxeViolation where
  id : String
  impact : Option String
  description : String
  helpUrl : Option String
  nodes : Int
deriving DecidableEq, Repr

/-- Outcomes of the effectful operations the audit performs.  Keyed by
URL where the source calls the operation per page. -/
structure Env where
  /-- `browser_manager.create_authenticated_context`: `some msg` raises. -/
  mintError : Option String
  /-- `context.new_page()`: `some msg` raises. -/
  newPageError : Option String
  /-- `page.goto(url)`: `some msg` raises for that URL. -/
  navError : String → Option String
  /-- The navigation response status; `none` models `response is None`. -/
  navResponse : String → Option Int
  /-- Wall-clock load time measured around `page.goto`, in ms. -/
  loadTime : String → ℚ
  /-- `page.evaluate` link enumeration on the page reached from the
  given URL; `none` models a raised evaluation. -/
  pageLinks : String → Option (List String)
  /-- `page.content()` for the page reached from the given URL. -/
  pageContent : String → String
  /-- Result of `_probe_safe_interactions` on that page (`none` when it
  returns None, also on any swallowed failure). -/
  probeNotes : String → Option String
  /-- `page.screenshot` to a fresh artifact path: the stored path, or
  `none` on a swallowed failure. -/
  screenshotResult : String → Option String
  /-- Header names of the HEAD response of `check_security_headers`;
  `none` models any raised exception (timeout included). -/
  headResult : Option (List String)
  /-- `context.cookies()`; `none` models a raised enumeration. -/
  cookies : Option (List PwCookie)
  /-- The collected axe-core run; `none` models any failure of the
  re-navigation, the script injection or the evaluation. -/
  a11yResults : Option (List AxeViolation)
  /-- Whether `page.screenshot` inside `_capture_live_preview` succeeds. -/
  previewOk : Bool

end Audit

namespace Audit

/-! ## AuditRunner (src/backend/app/services/audit_runner.py)

Event listeners (console, request, response, ...) append findings on the
driver's callback surface; they touch only the collection fields and are
orthogonal to the claims below, so the model leaves those collections as
the phases find them. -/

/-- `AuditManager.update_progress`: rebuild the progress record,
deriving `pages_visited` and `errors_found` from the current state. -/
def update_progress (st : AuditState) (stage : String) (percent : Int)
    (current_url : Option String) (message : Option String) : AuditState :=
  { st with progress :=
    { stage := stage, percent := percent, current_url := current_url,
      pages_visited := st.visited.length,
      errors_found := st.console_errors.length + st.network_failures.length,
      message := message } }

/-- The `except` branch of `AuditRunner.run`: status becomes `error`,
the message is recorded, progress resets to stage "error" at 0.
`finished_at` is not touched there. -/
def fail_audit (st : AuditState) (msg : String) : AuditState :=
  let st := { st with status := AuditStatus.error, error_message := some msg }
  update_progress st "error" 0 none (some ("Audit failed: " ++ msg))

/-- `AuditRunner._capture_live_preview`: best-effort preview screenshot;
any failure is swallowed.  (The 1 s wall-clock throttle only skips
captures and is not modelled.) -/
def capture_live_preview (env : Env) (st : AuditState) : AuditState :=
  if env.previewOk then
    { st with preview_image_path := some (st.artifacts_dir ++ "/preview_latest.jpg") }
  else st

/-- `AuditRunner._check_initial_availability`: navigate to the target,
record a timing and a UIFlowResult from the response status, and mark
the target visited; a raised navigation is caught and recorded as an
error UIFlowResult without marking the target visited. -/
def check_initial_availability (env : Env) (st : AuditState) : AuditState :=
  let st := update_progress st "checking_availability" 10 (some st.url) none
  match env.navError st.url with
  | some e =>
    { st with ui_flows := st.ui_flows ++
      [{ page_url := st.url, status := "error",
         notes := some ("Failed to load: " ++ e) }] }
  | none =>
    let load_time := env.loadTime st.url
    let st := capture_live_preview env st
    let st : AuditState := { st with page_timings := st.page_timings ++
      [{ url := st.url, dom_content_loaded_ms := some load_time }] }
    let sn : String × Option String :=
      match env.navResponse st.url with
      | some s =>
        if s ≥ 400 then ("error", some ("HTTP " ++ toString s))
        else if s ≥ 300 then ("warning", some ("Redirect: HTTP " ++ toString s))
        else ("ok", none)
      | none => ("ok", none)
    let st : AuditState := { st with ui_flows := st.ui_flows ++
      [{ page_url := st.url, status := sn.1, notes := sn.2,
         load_time_ms := some load_time }] }
    { st with visited := insertUniq st.visited st.url }

/-- The per-link body of `AuditRunner._discover_links`: keep links whose
netloc is the base domain or empty, normalize to scheme://netloc/path,
and add to the discovered set unless already visited. -/
def add_discovered (base : String) (st : AuditState) (link : String) : AuditState :=
  let parsed := urlsplit link
  if parsed.netloc == base || parsed.netloc == "" then
    let clean_url := parsed.scheme ++ "://" ++ parsed.netloc ++ parsed.path
    if clean_url ≠ "" ∧ clean_url ∉ st.visited then
      { st with discovered := insertUniq st.discovered clean_url }
    else st
  else st

/-- `AuditRunner._discover_links`: enumerate `a[href]` links on the
current page (the browser already drops javascript:/mailto: schemes in
the injected collector) and fold them in; a raised evaluation is caught
and leaves the state unchanged. -/
def discover_links (env : Env) (pageUrl : String) (st : AuditState) : AuditState :=
  match env.pageLinks pageUrl with
  | none => st
  | some links =>
    let base := (urlsplit st.url).netloc
    links.foldl (add_discovered base) st

/-- `AuditRunner._take_screenshot`: on success the fresh path is stored
and returned; a raised screenshot is caught and yields `none`. -/
def take_screenshot (env : Env) (url : String) (st : AuditState) :
    Option String × AuditState :=
  match env.screenshotResult url with
  | some p => (some p, { st with screenshots := st.screenshots ++ [p] })
  | none => (none, st)

/-- The content/status classification inside `AuditRunner._audit_page`:
blank page (trimmed length < 100) beats the error-phrase regex, which
beats the HTTP status. -/
def page_status_notes (content : String) (respStatus : Option Int) :
    String × Option String :=
  let has_error := error_regex_matches content
  let is_blank := (py_strip content).length < 100
  if is_blank then ("error", some "Blank or nearly empty page")
  else if has_error then ("warning", some "Page contains error patterns")
  else
    match respStatus with
    | some s => if s ≥ 400 then ("error", some ("HTTP " ++ toString s)) else ("ok", none)
    | none => ("ok", none)

/-- `notes = f"{notes + ' | ' if notes else ''}{interaction_notes}"`,
applied only when interaction notes exist. -/
def combine_notes (notes interaction : Option String) : Option String :=
  match interaction with
  | none => notes
  | some pn =>
    some ((match notes with | some n => n ++ " | " | none => "") ++ pn)

/-- `AuditRunner._audit_page`: navigate, optionally probe, record a
timing, classify the content, screenshot on a non-ok status when
enabled, append the UIFlowResult, re-run link discovery, refresh the
preview; a raised navigation is caught and recorded as an error
UIFlowResult. -/
def audit_page (env : Env) (url : String) (st : AuditState) : AuditState :=
  match env.navError url with
  | some e =>
    { st with ui_flows := st.ui_flows ++
      [{ page_url := url, status := "error", notes := some ("Failed: " ++ e) }] }
  | none =>
    let load_time := env.loadTime url
    let interaction_notes :=
      if st.options.check_ui_flows then env.probeNotes url else none
    let st := { st with page_timings := st.page_timings ++
      [{ url := url, dom_content_loaded_ms := some load_time }] }
    let content := env.pageContent url
    let sn := page_status_notes content (env.navResponse url)
    let shot :=
      if sn.1 ≠ "ok" ∧ st.options.screenshot_on_error then
        take_screenshot env url st
      else (none, st)
    let st := shot.2
    let notes := combine_notes sn.2 interaction_notes
    let st := { st with ui_flows := st.ui_flows ++
      [{ page_url := url, status := sn.1, notes := notes,
         screenshot_path := shot.1, load_time_ms := some load_time }] }
    let st := discover_links env url st
    capture_live_preview env st

/-- The crawl selection: `list(discovered - visited)[: max_pages - 1]`. -/
def pages_to_visit (st : AuditState) : List String :=
  (st.discovered.filter (fun u => decide (u ∉ st.visited))).take
    (st.options.max_pages - 1)

/-- The progress update at the top of each crawl iteration.  The
percent is `20 + int((i / max(total, 1)) * 60)`, a float computation in
the source, modelled by exact integer division. -/
def crawl_step1 (total i : Nat) (url : String) (st : AuditState) : AuditState :=
  update_progress st "auditing_pages"
    (20 + ((i * 60) / max total 1 : Nat)) (some url)
    (some ("Checking page " ++ toString (i + 1) ++ "/" ++ toString total))

/-- The state after `_audit_page` in a crawl iteration. -/
def crawl_step2 (env : Env) (total i : Nat) (url : String) (st : AuditState) : AuditState :=
  audit_page env url (crawl_step1 total i url st)

/-- The state after `self.audit.visited_urls.add(url)` in a crawl
iteration. -/
def crawl_step3 (env : Env) (total i : Nat) (url : String) (st : AuditState) : AuditState :=
  { crawl_step2 env total i url st with
    visited := insertUniq (crawl_step2 env total i url st).visited url }

/-- The per-URL loop of `AuditRunner._crawl_and_audit`, also returning
the intermediate states (the observable moments between suspension
points). -/
def crawl_loop (env : Env) (total : Nat) :
    Nat → List String → AuditState → AuditState × List AuditState
  | _, [], st => (st, [])
  | i, url :: rest, st =>
    let st3 := crawl_step3 env total i url st
    let r := crawl_loop env total (i + 1) rest st3
    (r.1, crawl_step1 total i url st :: crawl_step2 env total i url st :: st3 :: r.2)

/-- `AuditRunner._crawl_and_audit`: discover links from the current
page, select up to `max_pages - 1` not-yet-visited URLs, and audit each
in turn.  Also returns the intermediate states. -/
def crawl_and_audit (env : Env) (st : AuditState) : AuditState × List AuditState :=
  let st0 := update_progress st "crawling" 20 none (some "Discovering pages...")
  let st1 := discover_links env st0.url st0
  let pages := pages_to_visit st1
  let r := crawl_loop env pages.length 0 pages st1
  (r.1, st0 :: st1 :: r.2)

/-- The cookie-issue derivation inside `AuditRunner._check_security_hygiene`. -/
def cookie_issues_of (cs : List PwCookie) : List CookieFlagIssue :=
  cs.foldl
    (fun acc cookie =>
      let issues :=
        (if !cookie.secure then ["Missing Secure flag"] else []) ++
        (if !cookie.httpOnly then ["Missing HttpOnly flag"] else []) ++
        (if (match cookie.sameSite with
             | none => true
             | some s => s == "" || s == "None") then
          ["SameSite not set or None"]
         else [])
      if issues ≠ [] then
        acc ++ [{ name := cookie.name, domain := cookie.domain, issues := issues }]
      else acc)
    []

/-- `AuditRunner._check_security_hygiene`: https from the URL scheme,
headers from the out-of-band probe, cookie issues from the context
(raised enumeration caught, leaving the issue list empty). -/
def check_security_hygiene (env : Env) (st : AuditState) : AuditState :=
  let st := update_progress st "security_check" 85 none
    (some "Checking security hygiene...")
  let https_ok := st.url.startsWith "https://"
  let headers_result := check_security_headers env.headResult
  let cookie_issues :=
    match env.cookies with
    | none => []
    | some cs => cookie_issues_of cs
  let sh : SecurityHygiene :=
    { https_ok := https_ok, headers_present := headers_result.1,
      headers_missing := headers_result.2,
      cookie_flags_issues := cookie_issues }
  { st with security_hygiene := some sh }

/-- `AuditRunner._run_accessibility_checks`: skipped unless enabled; all
failures (re-navigation, injection, evaluation) are caught; at most 20
violations are collected, `impact` defaulting to "moderate" when null or
empty. -/
def run_accessibility_checks (env : Env) (st : AuditState) : AuditState :=
  if !st.options.include_accessibility then st
  else
    let st := update_progress st "accessibility_check" 90 none
      (some "Running accessibility checks...")
    match env.a11yResults with
    | none => st
    | some vs =>
      { st with accessibility_violations := st.accessibility_violations ++
        (vs.take 20).map (fun v =>
          { id := v.id,
            impact :=
              match v.impact with
              | some s => if s ≠ "" then s else "moderate"
              | none => "moderate",
            description := v.description, help_url := v.helpUrl,
            nodes_count := v.nodes, page_url := st.url }) }

/-- The success tail of `AuditRunner.run`: status done, `finished_at`
set, progress complete at 100. -/
def finalize (st : AuditState) : AuditState :=
  let st := { st with status := AuditStatus.done, finished_at_set := true }
  update_progress st "complete" 100 none
    (some ("Audit complete. Visited " ++ toString st.visited.length ++ " pages."))

/-- The head of `AuditRunner.run`: status running, progress "starting"
at 5. -/
def stage_start (st0 : AuditState) : AuditState :=
  update_progress { st0 with status := AuditStatus.running } "starting" 5 none none

/-- The state after `_check_initial_availability`. -/
def stage_avail (env : Env) (st0 : AuditState) : AuditState :=
  check_initial_availability env (stage_start st0)

/-- The state after `_crawl_and_audit`, with the crawl's intermediate
states. -/
def stage_crawl (env : Env) (st0 : AuditState) : AuditState × List AuditState :=
  crawl_and_audit env (stage_avail env st0)

/-- The state after `_check_security_hygiene`. -/
def stage_sec (env : Env) (st0 : AuditState) : AuditState :=
  check_security_hygiene env (stage_crawl env st0).1

/-- The state after `_run_accessibility_checks`. -/
def stage_acc (env : Env) (st0 : AuditState) : AuditState :=
  run_accessibility_checks env (stage_sec env st0)

/-- The final state of a successful run. -/
def stage_fin (env : Env) (st0 : AuditState) : AuditState :=
  finalize (stage_acc env st0)

/-- `AuditRunner.run`: the try-block's phases in order; a raised context
mint or page open falls to the except branch.  All downstream phases
catch their own failures (see their definitions), so nothing else
reaches the except branch. -/
def run (env : Env) (st0 : AuditState) : AuditState :=
  match env.mintError with
  | some e => fail_audit (stage_start st0) e
  | none =>
    match env.newPageError with
    | some e => fail_audit (stage_start st0) e
    | none => stage_fin env st0

/-- The observable states of one run, in order: the record as created,
then the state at each suspension point of `AuditRunner.run` and of the
crawl loop, ending with the final state. -/
def runTrace (env : Env) (st0 : AuditState) : List AuditState :=
  match env.mintError with
  | some e => [st0, stage_start st0, fail_audit (stage_start st0) e]
  | none =>
    match env.newPageError with
    | some e => [st0, stage_start st0, fail_audit (stage_start st0) e]
    | none =>
      [st0, stage_start st0, stage_avail env st0] ++ (stage_crawl env st0).2
        ++ [(stage_crawl env st0).1, stage_sec env st0, stage_acc env st0,
            stage_fin env st0]

end Audit

namespace Audit

/-! ## ReportBuilder (src/backend/app/services/report_builder.py) -/

/-- `ReportBuilder._count_security_issues`. -/
def count_security_issues (st : AuditState) : Int :=
  match st.security_hygiene with
  | none => 0
  | some sh =>
    (if !sh.https_ok then 2 else 0) +
      sh.headers_missing.length + sh.cookie_flags_issues.length

/-- The UI error count used by `ReportBuilder`:
`sum(1 for f in ui_flows if f.status == "error")`. -/
def ui_error_count (st : AuditState) : Int :=
  (st.ui_flows.filter (fun f => f.status == "error")).length

/-- `ReportBuilder._calculate_category_scores`. -/
def calculate_category_scores (st : AuditState) : List CategoryScore :=
  let console_score := max 0 (20 - (st.console_errors.length : Int) * 2)
  let network_score := max 0 (20 - (st.network_failures.length : Int) * 3)
  let ui_errors := ui_error_count st
  let ui_score := max 0 (20 - ui_errors * 4)
  let security_issues := count_security_issues st
  let security_score := max 0 (20 - security_issues * 3)
  let perf_issues := (st.slow_endpoints.length : Int) + (st.large_assets.length : Int)
  let perf_score := max 0 (10 - perf_issues)
  let a11y_score := max 0 (10 - (st.accessibility_violations.length : Int))
  [{ category := "Console Errors", score := console_score, max_score := 20,
     issues_count := (st.console_errors.length : Int) },
   { category := "Network/API", score := network_score, max_score := 20,
     issues_count := (st.network_failures.length : Int) },
   { category := "UI Flows", score := ui_score, max_score := 20,
     issues_count := ui_errors },
   { category := "Security", score := security_score, max_score := 20,
     issues_count := security_issues },
   { category := "Performance", score := perf_score, max_score := 10,
     issues_count := perf_issues },
   { category := "Accessibility", score := a11y_score, max_score := 10,
     issues_count := (st.accessibility_violations.length : Int) }]

/-- The overall score as assembled in `ReportBuilder.build`: the counter
lengths and the shared security aggregate fed to `calculate_score`. -/
def build_total_score (st : AuditState) : Int :=
  calculate_score
    (st.console_errors.length : Int)
    (st.network_failures.length : Int)
    (ui_error_count st)
    (count_security_issues st)
    (st.accessibility_violations.length : Int)
    (st.slow_endpoints.length : Int)

end Audit

namespace Audit

/-! ## Predicates and concrete environments used by the statements -/

/-- A URL string assembled as scheme://netloc/path — hence free of '?'
and '#' — whose netloc is the base domain or empty (the empty case
arises from scheme-relative or relative hrefs). -/
def norm_ok (base u : String) : Prop :=
  ('?' ∉ u.data ∧ '#' ∉ u.data) ∧
  ∃ sch nl pa : String, u = sch ++ "://" ++ nl ++ pa ∧ (nl = base ∨ nl = "")

/-- The link-set invariant of an audit state with target `target`:
every discovered URL is normalized same-site, and every visited URL is
either the verbatim target or such a normalized URL. -/
def links_inv (target : String) (s : AuditState) : Prop :=
  (∀ u ∈ s.discovered, norm_ok (urlsplit target).netloc u)
  ∧ (∀ u ∈ s.visited, u = target ∨ norm_ok (urlsplit target).netloc u)

/-- The audit-record fields no phase of the runner may change mid-run. -/
def same_core (s t : AuditState) : Prop :=
  t.status = s.status ∧ t.finished_at_set = s.finished_at_set
  ∧ t.url = s.url ∧ t.options = s.options ∧ t.error_message = s.error_message

/-- An environment in which every browser operation succeeds and every
collection comes back empty. -/
def quietEnv : Env :=
  { mintError := none, newPageError := none,
    navError := fun _ => none, navResponse := fun _ => some 200,
    loadTime := fun _ => 0, pageLinks := fun _ => some [],
    pageContent := fun _ => "", probeNotes := fun _ => none,
    screenshotResult := fun _ => none, headResult := some [],
    cookies := some [], a11yResults := some [], previewOk := true }

/-- `quietEnv` with a raised `create_authenticated_context`. -/
def mintFailEnv : Env :=
  { quietEnv with mintError := some "mint failed" }

/-- `quietEnv` serving a near-empty page body everywhere. -/
def blankPageEnv : Env :=
  { quietEnv with pageContent := fun _ => "<html><body></body></html>" }

end Audit

/-! # Theorems -/

namespace Audit

theorem cleanup_keep_all (now : ℚ) (ts : List ℚ)
    (h : ∀ t ∈ ts, now - 60 < t) : cleanup_old_requests now ts = ts := by
  unfold cleanup_old_requests
  exact List.filter_eq_self.mpr (fun t ht => by simpa using h t ht)

theorem runCalls_all_admitted (limit : Nat) (st cs : List ℚ)
    (hlen : st.length + cs.length ≤ limit)
    (hst : ∀ c ∈ cs, ∀ t ∈ st, c - 60 < t)
    (hcs : ∀ c ∈ cs, ∀ t ∈ cs, c - 60 < t) :
    runCalls limit st cs = (List.replicate cs.length true, st ++ cs) := by
  induction cs generalizing st with
  | nil => simp [runCalls]
  | cons c0 rest ih =>
    have hkeep : cleanup_old_requests c0 st = st :=
      cleanup_keep_all c0 st (fun t ht => hst c0 (by simp) t ht)
    have hlt : st.length < limit := by
      simp only [List.length_cons] at hlen; omega
    have hstep : is_allowed limit c0 st = (true, st ++ [c0]) := by
      unfold is_allowed
      rw [hkeep]
      simp [Nat.not_le.mpr hlt]
    have harg1 : (st ++ [c0]).length + rest.length ≤ limit := by
      simp only [List.length_append, List.length_cons, List.length_nil,
        List.length_cons] at hlen ⊢
      omega
    have harg2 : ∀ c ∈ rest, ∀ t ∈ st ++ [c0], c - 60 < t := by
      intro c hc t ht
      rcases List.mem_append.mp ht with h1 | h1
      · exact hst c (List.mem_cons_of_mem _ hc) t h1
      · have ht0 : t = c0 := by simpa using h1
        subst ht0
        exact hcs c (List.mem_cons_of_mem _ hc) t (List.mem_cons_self _ _)
    have harg3 : ∀ c ∈ rest, ∀ t ∈ rest, c - 60 < t := by
      intro c hc t ht
      exact hcs c (List.mem_cons_of_mem _ hc) t (List.mem_cons_of_mem _ ht)
    have ih' := ih (st ++ [c0]) harg1 harg2 harg3
    simp only [runCalls, hstep, ih']
    simp [List.replicate_succ]

end Audit

namespace Audit

/-- C1: the overall score function is pure and deterministic (it is a
function of its counter tuple alone); for non-negative counters it
equals 100 minus the capped penalties, clamped to [0, 100]; and the
all-zero tuple scores 100 with grade A. -/
theorem overall_score_formula (c n u s a sl : Int)
    (hc : 0 ≤ c) (hn : 0 ≤ n) (hu : 0 ≤ u) (hs : 0 ≤ s) (ha : 0 ≤ a) (hsl : 0 ≤ sl) :
    calculate_score c n u s a sl =
      max 0 (min 100 (100 -
        (min (2 * c) 20 + min (3 * n) 20 + min (4 * u) 20 + min (3 * s) 20 +
         min a 10 + min sl 10)))
    ∧ calculate_score 0 0 0 0 0 0 = 100
    ∧ get_grade (calculate_score 0 0 0 0 0 0) = "A" := by
  refine ⟨?_, by decide, by decide⟩
  simp only [calculate_score]
  omega

/-- Witness for `overall_score_formula` at counters (1, 2, 3, 4, 5, 6). -/
theorem overall_score_formula_witness :
    calculate_score 1 2 3 4 5 6 =
      max 0 (min 100 (100 -
        (min (2 * 1) 20 + min (3 * 2) 20 + min (4 * 3) 20 + min (3 * 4) 20 +
         min 5 10 + min 6 10)))
    ∧ calculate_score 0 0 0 0 0 0 = 100
    ∧ get_grade (calculate_score 0 0 0 0 0 0) = "A" :=
  overall_score_formula 1 2 3 4 5 6 (by decide) (by decide) (by decide)
    (by decide) (by decide) (by decide)

end Audit

namespace Audit

/-- C7: with limit N, N admissions from one IP within one minute fill
the window: each of the N calls is admitted, the (N+1)-th call still
inside one minute of every admitted instant is denied, and once the
earliest admitted instant is 60 seconds old a further call is admitted
again. -/
theorem rate_limiter_window (N : Nat) (cs : List ℚ)
    (hlen : cs.length = N)
    (hwin : ∀ c ∈ cs, ∀ t ∈ cs, c - 60 < t)
    (t : ℚ) (ht : ∀ x ∈ cs, t - 60 < x)
    (t' : ℚ) (m : ℚ) (hm : m ∈ cs) (hmin : m + 60 ≤ t') :
    (runCalls N [] cs).1 = List.replicate N true
    ∧ (is_allowed N t (runCalls N [] cs).2).1 = false
    ∧ (is_allowed N t' (is_allowed N t (runCalls N [] cs).2).2).1 = true := by
  have hbuild : runCalls N [] cs = (List.replicate cs.length true, cs) := by
    have := runCalls_all_admitted N [] cs (by simp [hlen]) (by simp) hwin
    simpa using this
  have hclean : cleanup_old_requests t cs = cs := cleanup_keep_all t cs ht
  have hdeny : is_allowed N t cs = (false, cs) := by
    unfold is_allowed
    rw [hclean]
    simp [hlen]
  refine ⟨by rw [hbuild, hlen], by rw [hbuild, hdeny], ?_⟩
  rw [hbuild]
  simp only [hdeny]
  unfold is_allowed cleanup_old_requests
  have hdrop : (cs.filter (fun x => decide (t' - 60 < x))).length < cs.length := by
    apply List.length_filter_lt_length_iff_exists.mpr
    exact ⟨m, hm, by simp; linarith⟩
  have : ¬ N ≤ (cs.filter (fun x => decide (t' - 60 < x))).length := by omega
  simp [this]

/-- Witness for `rate_limiter_window`: N = 2, admissions at 0 s and
10 s, a denied call at 30 s, a readmitted call at 61 s. -/
theorem rate_limiter_window_witness :
    (runCalls 2 [] [0, 10]).1 = List.replicate 2 true
    ∧ (is_allowed 2 30 (runCalls 2 [] [0, 10]).2).1 = false
    ∧ (is_allowed 2 61 (is_allowed 2 30 (runCalls 2 [] [0, 10]).2).2).1 = true :=
  rate_limiter_window 2 [0, 10] (by decide)
    (by intro c hc t ht; fin_cases hc <;> fin_cases ht <;> norm_num)
    30 (by intro x hx; fin_cases hx <;> norm_num)
    61 0 (by norm_num) (by norm_num)

/-- C10: a denied check consumes no capacity: when `is_allowed` denies,
the stored list is exactly the old list pruned of entries at least one
minute old — nothing is appended, so every stored timestamp was already
present. -/
theorem denied_check_consumes_nothing (limit : Nat) (now : ℚ) (ts : List ℚ)
    (h : (is_allowed limit now ts).1 = false) :
    (is_allowed limit now ts).2 = cleanup_old_requests now ts
    ∧ ∀ x ∈ (is_allowed limit now ts).2, x ∈ ts := by
  unfold is_allowed at h ⊢
  by_cases hc : limit ≤ (cleanup_old_requests now ts).length
  · rw [if_pos hc]
    refine ⟨rfl, fun x hx => ?_⟩
    unfold cleanup_old_requests at hx
    exact List.mem_of_mem_filter hx
  · rw [if_neg hc] at h
    simp at h

/-- Witness for `denied_check_consumes_nothing`: limit 1, one admission
at 0 s, the denied call also at 0 s. -/
theorem denied_check_consumes_nothing_witness :
    (is_allowed 1 0 [0]).2 = cleanup_old_requests 0 [0]
    ∧ ∀ x ∈ (is_allowed 1 0 [0]).2, x ∈ ([0] : List ℚ) :=
  denied_check_consumes_nothing 1 0 [0]
    (by norm_num [is_allowed, cleanup_old_requests])

end Audit

namespace Audit

/-- Folding the present/missing loop body over any header list splits it
into the matching and non-matching sublists, in order. -/
theorem foldl_partition (p : String → Bool) (l acc1 acc2 : List String) :
    l.foldl
      (fun pm header =>
        if p header then (pm.1 ++ [header], pm.2) else (pm.1, pm.2 ++ [header]))
      (acc1, acc2)
      = (acc1 ++ l.filter p, acc2 ++ l.filter (fun x => !p x)) := by
  induction l generalizing acc1 acc2 with
  | nil => simp
  | cons x xs ih =>
    by_cases hx : p x
    · simp [List.foldl_cons, hx, ih]
    · simp [List.foldl_cons, hx, ih]

theorem check_headers_eq_filter (hs : List String) :
    check_security_headers (some hs) =
      (SECURITY_HEADERS.filter
        (fun header => hs.any (fun h => pyLower h == pyLower header)),
       SECURITY_HEADERS.filter
        (fun header => !hs.any (fun h => pyLower h == pyLower header))) := by
  have h := foldl_partition
    (fun header => hs.any (fun h => pyLower h == pyLower header))
    SECURITY_HEADERS [] []
  simpa [check_security_headers] using h

/-- C9: `check_security_headers` always partitions the fixed six-header
set — each tracked header lands in exactly one of present/missing, and
the lists hold only tracked headers — and any raised HEAD request
(timeout included) yields present = [] with all six headers missing. -/
theorem security_headers_partition (resp : Option (List String)) :
    (∀ h ∈ SECURITY_HEADERS,
      (h ∈ (check_security_headers resp).1 ∧ h ∉ (check_security_headers resp).2)
      ∨ (h ∉ (check_security_headers resp).1 ∧ h ∈ (check_security_headers resp).2))
    ∧ (∀ h, (h ∈ (check_security_headers resp).1 ∨ h ∈ (check_security_headers resp).2)
        → h ∈ SECURITY_HEADERS)
    ∧ check_security_headers none = ([], SECURITY_HEADERS) := by
  refine ⟨?_, ?_, rfl⟩
  · intro h hh
    cases resp with
    | none => exact Or.inr ⟨by simp [check_security_headers], by simpa [check_security_headers] using hh⟩
    | some hs =>
      rw [check_headers_eq_filter]
      by_cases hp : hs.any (fun x => pyLower x == pyLower h)
      · exact Or.inl ⟨List.mem_filter.mpr ⟨hh, hp⟩, by simp [List.mem_filter, hp]⟩
      · exact Or.inr ⟨by simp [List.mem_filter, hp], List.mem_filter.mpr ⟨hh, by simp [hp]⟩⟩
  · intro h hh
    cases resp with
    | none =>
      rcases hh with h1 | h1
      · simp [check_security_headers] at h1
      · simpa [check_security_headers] using h1
    | some hs =>
      rw [check_headers_eq_filter] at hh
      rcases hh with h1 | h1
      · exact (List.mem_filter.mp h1).1
      · exact (List.mem_filter.mp h1).1

/-- Witness for `security_headers_partition`: the X-Frame-Options header
with a response carrying only that header (lower-case). -/
theorem security_headers_partition_witness :
    (("X-Frame-Options" ∈ (check_security_headers (some ["x-frame-options"])).1
      ∧ "X-Frame-Options" ∉ (check_security_headers (some ["x-frame-options"])).2)
     ∨ ("X-Frame-Options" ∉ (check_security_headers (some ["x-frame-options"])).1
      ∧ "X-Frame-Options" ∈ (check_security_headers (some ["x-frame-options"])).2)) :=
  (security_headers_partition (some ["x-frame-options"])).1 "X-Frame-Options" (by decide)

end Audit

namespace Audit

/-- C6: the six category scores are the stated integer formulas with a
lower bound of 0; the security aggregate counts 2 for a non-HTTPS
target plus one per missing header and per cookie issue (0 with no
security-hygiene record); and the overall score consumes that same
aggregate. -/
theorem category_scores_formulas (st : AuditState) :
    calculate_category_scores st =
      [{ category := "Console Errors",
         score := max 0 (20 - 2 * (st.console_errors.length : Int)),
         max_score := 20, issues_count := (st.console_errors.length : Int) },
       { category := "Network/API",
         score := max 0 (20 - 3 * (st.network_failures.length : Int)),
         max_score := 20, issues_count := (st.network_failures.length : Int) },
       { category := "UI Flows",
         score := max 0 (20 - 4 * ui_error_count st),
         max_score := 20, issues_count := ui_error_count st },
       { category := "Security",
         score := max 0 (20 - 3 * count_security_issues st),
         max_score := 20, issues_count := count_security_issues st },
       { category := "Performance",
         score := max 0 (10 - ((st.slow_endpoints.length : Int) + (st.large_assets.length : Int))),
         max_score := 10,
         issues_count := (st.slow_endpoints.length : Int) + (st.large_assets.length : Int) },
       { category := "Accessibility",
         score := max 0 (10 - (st.accessibility_violations.length : Int)),
         max_score := 10, issues_count := (st.accessibility_violations.length : Int) }]
    ∧ count_security_issues st =
        (match st.security_hygiene with
         | none => 0
         | some sh =>
           2 * (if sh.https_ok then 0 else 1) +
             (sh.headers_missing.length : Int) + (sh.cookie_flags_issues.length : Int))
    ∧ build_total_score st =
        calculate_score
          (st.console_errors.length : Int)
          (st.network_failures.length : Int)
          (ui_error_count st)
          (count_security_issues st)
          (st.accessibility_violations.length : Int)
          (st.slow_endpoints.length : Int) := by
  refine ⟨?_, ?_, rfl⟩
  · simp [calculate_category_scores, CategoryScore.mk.injEq, Int.mul_comm]
  · cases hsh : st.security_hygiene with
    | none => simp [count_security_issues, hsh]
    | some sh =>
      cases hok : sh.https_ok <;>
        simp [count_security_issues, hsh, hok]

end Audit

namespace Audit

/-! ## Phase preservation lemmas -/

theorem same_core_refl (s : AuditState) : same_core s s :=
  ⟨rfl, rfl, rfl, rfl, rfl⟩

theorem same_core_trans {s t r : AuditState}
    (h1 : same_core s t) (h2 : same_core t r) : same_core s r :=
  ⟨h2.1.trans h1.1, h2.2.1.trans h1.2.1, h2.2.2.1.trans h1.2.2.1,
   h2.2.2.2.1.trans h1.2.2.2.1, h2.2.2.2.2.trans h1.2.2.2.2⟩

theorem update_progress_core (st : AuditState) (a : String) (b : Int)
    (c d : Option String) : same_core st (update_progress st a b c d) :=
  ⟨rfl, rfl, rfl, rfl, rfl⟩

theorem capture_core (env : Env) (st : AuditState) :
    same_core st (capture_live_preview env st)
    ∧ (capture_live_preview env st).visited = st.visited
    ∧ (capture_live_preview env st).discovered = st.discovered
    ∧ (capture_live_preview env st).ui_flows = st.ui_flows := by
  unfold capture_live_preview
  split
  · exact ⟨⟨rfl, rfl, rfl, rfl, rfl⟩, rfl, rfl, rfl⟩
  · exact ⟨same_core_refl st, rfl, rfl, rfl⟩

theorem take_screenshot_core (env : Env) (url : String) (st : AuditState) :
    same_core st (take_screenshot env url st).2
    ∧ (take_screenshot env url st).2.visited = st.visited
    ∧ (take_screenshot env url st).2.discovered = st.discovered
    ∧ (take_screenshot env url st).2.ui_flows = st.ui_flows := by
  unfold take_screenshot
  cases env.screenshotResult url
  · exact ⟨same_core_refl st, rfl, rfl, rfl⟩
  · exact ⟨⟨rfl, rfl, rfl, rfl, rfl⟩, rfl, rfl, rfl⟩

theorem add_discovered_core (base : String) (st : AuditState) (link : String) :
    same_core st (add_discovered base st link)
    ∧ (add_discovered base st link).visited = st.visited
    ∧ (add_discovered base st link).ui_flows = st.ui_flows := by
  unfold add_discovered
  dsimp only
  split
  · split
    · exact ⟨⟨rfl, rfl, rfl, rfl, rfl⟩, rfl, rfl⟩
    · exact ⟨same_core_refl st, rfl, rfl⟩
  · exact ⟨same_core_refl st, rfl, rfl⟩

theorem foldl_add_discovered_core (base : String) (links : List String)
    (st : AuditState) :
    same_core st (links.foldl (add_discovered base) st)
    ∧ (links.foldl (add_discovered base) st).visited = st.visited
    ∧ (links.foldl (add_discovered base) st).ui_flows = st.ui_flows := by
  induction links generalizing st with
  | nil => exact ⟨same_core_refl st, rfl, rfl⟩
  | cons l ls ih =>
    have h1 := add_discovered_core base st l
    have h2 := ih (add_discovered base st l)
    exact ⟨same_core_trans h1.1 h2.1, h2.2.1.trans h1.2.1, h2.2.2.trans h1.2.2⟩

theorem discover_links_core (env : Env) (p : String) (st : AuditState) :
    same_core st (discover_links env p st)
    ∧ (discover_links env p st).visited = st.visited
    ∧ (discover_links env p st).ui_flows = st.ui_flows := by
  unfold discover_links
  cases env.pageLinks p
  · exact ⟨same_core_refl st, rfl, rfl⟩
  · exact (foldl_add_discovered_core _ _ st)

theorem check_initial_availability_core (env : Env) (st : AuditState) :
    same_core st (check_initial_availability env st)
    ∧ (check_initial_availability env st).discovered = st.discovered
    ∧ ((check_initial_availability env st).visited = st.visited
       ∨ (check_initial_availability env st).visited = insertUniq st.visited st.url) := by
  unfold check_initial_availability
  dsimp only [update_progress]
  split
  · exact ⟨⟨rfl, rfl, rfl, rfl, rfl⟩, rfl, Or.inl rfl⟩
  · unfold capture_live_preview
    split
    · exact ⟨⟨rfl, rfl, rfl, rfl, rfl⟩, rfl, Or.inr rfl⟩
    · exact ⟨⟨rfl, rfl, rfl, rfl, rfl⟩, rfl, Or.inr rfl⟩

end Audit

namespace Audit

/-! ## urlsplit component lemmas -/

theorem char_ofNat_toNat_of_le (n : Nat) (h1 : 97 ≤ n) (h2 : n ≤ 122) :
    (Char.ofNat n).toNat = n := by
  have hv : n.isValidChar := Or.inl (by omega)
  simp [Char.ofNat, hv, Char.ofNatAux, Char.toNat, UInt32.toNat,
    UInt32.ofNat', BitVec.toNat_ofNatLt]

theorem toLower_eq_self_or_ge97 (c : Char) :
    Char.toLower c = c ∨ 97 ≤ (Char.toLower c).toNat := by
  unfold Char.toLower
  by_cases hc : c.toNat ≥ 65 ∧ c.toNat ≤ 90
  · right
    rw [if_pos hc, char_ofNat_toNat_of_le (c.toNat + 32) (by omega) (by omega)]
    omega
  · left
    rw [if_neg hc]

theorem splitOnFirst_fst_not_mem (c : Char) (cs : List Char) :
    c ∉ (splitOnFirst c cs).1 := by
  induction cs with
  | nil => simp [splitOnFirst]
  | cons x xs ih =>
    by_cases hx : x == c
    · simp [splitOnFirst, hx]
    · simp only [splitOnFirst, hx, if_neg, Bool.false_eq_true, not_false_eq_true,
        List.mem_cons, not_or]
      constructor
      · intro h
        exact absurd (by simp [h]) hx
      · exact ih

theorem splitOnFirst_fst_sub (c : Char) (cs : List Char) :
    ∀ x ∈ (splitOnFirst c cs).1, x ∈ cs := by
  induction cs with
  | nil => simp [splitOnFirst]
  | cons y ys ih =>
    intro x hx
    by_cases hy : y == c
    · simp [splitOnFirst, hy] at hx
    · simp only [splitOnFirst, hy, if_neg, Bool.false_eq_true, not_false_eq_true,
        List.mem_cons] at hx
      rcases hx with h | h
      · exact List.mem_cons.mpr (Or.inl h)
      · exact List.mem_cons.mpr (Or.inr (ih x h))

theorem parse_scheme_fst_shape (cs : List Char) :
    (parse_scheme cs).1 = []
    ∨ ∃ l : List Char, (∀ a ∈ l, scheme_char a = true)
        ∧ (parse_scheme cs).1 = l.map Char.toLower := by
  unfold parse_scheme
  dsimp only
  split
  · split
    · exact Or.inl rfl
    · split
      · rename_i c0 cs0 heq hall
        refine Or.inr ⟨c0 :: cs0, ?_, rfl⟩
        intro a ha
        have := (Bool.and_eq_true _ _).mp hall
        exact List.all_eq_true.mp this.2 a ha
      · exact Or.inl rfl
  · exact Or.inl rfl

/-- No character below code point 97 that is not a scheme character can
appear in a parsed scheme (so in particular '?', '#', '/' cannot). -/
theorem parse_scheme_fst_no_special (cs : List Char) (d : Char)
    (hd : d.toNat < 97) (hds : scheme_char d = false) :
    d ∉ (parse_scheme cs).1 := by
  rcases parse_scheme_fst_shape cs with h | ⟨l, hl, h⟩
  · simp [h]
  · rw [h]
    intro hmem
    rcases List.mem_map.mp hmem with ⟨a, ha, hla⟩
    rcases toLower_eq_self_or_ge97 a with h1 | h1
    · rw [hla] at h1
      subst h1
      exact absurd (hl d ha) (by simp [hds])
    · rw [hla] at h1
      omega

theorem parse_netloc_fst_no_stop (cs : List Char) (d : Char)
    (hd : netloc_stop d = true) : d ∉ (parse_netloc cs).1 := by
  unfold parse_netloc
  split
  · intro hmem
    have := List.mem_takeWhile_imp hmem
    simp [hd] at this
  · simp

theorem urlsplit_no_special (u : String) :
    ('?' ∉ (urlsplit u).scheme.data ∧ '#' ∉ (urlsplit u).scheme.data)
    ∧ ('?' ∉ (urlsplit u).netloc.data ∧ '#' ∉ (urlsplit u).netloc.data)
    ∧ ('?' ∉ (urlsplit u).path.data ∧ '#' ∉ (urlsplit u).path.data) := by
  refine ⟨⟨?_, ?_⟩, ⟨?_, ?_⟩, ⟨?_, ?_⟩⟩
  · exact parse_scheme_fst_no_special u.data '?' (by decide) (by decide)
  · exact parse_scheme_fst_no_special u.data '#' (by decide) (by decide)
  · exact parse_netloc_fst_no_stop _ '?' (by decide)
  · exact parse_netloc_fst_no_stop _ '#' (by decide)
  · exact splitOnFirst_fst_not_mem '?' _
  · intro hmem
    have hsub := splitOnFirst_fst_sub '?' _ _ hmem
    exact splitOnFirst_fst_not_mem '#' _ hsub

/-- The normalized URL built by `_discover_links` from any parsed link
whose netloc is the base domain or empty satisfies `norm_ok`. -/
theorem clean_url_norm_ok (base link : String)
    (hnl : (urlsplit link).netloc = base ∨ (urlsplit link).netloc = "") :
    norm_ok base
      ((urlsplit link).scheme ++ "://" ++ (urlsplit link).netloc ++ (urlsplit link).path) := by
  have hq := urlsplit_no_special link
  refine ⟨⟨?_, ?_⟩, (urlsplit link).scheme, (urlsplit link).netloc, (urlsplit link).path, rfl, hnl⟩
  · intro hmem
    simp only [String.data_append] at hmem
    rcases List.mem_append.mp hmem with h | h
    · rcases List.mem_append.mp h with h | h
      · rcases List.mem_append.mp h with h | h
        · exact hq.1.1 h
        · simp at h
      · exact hq.2.1.1 h
    · exact hq.2.2.1 h
  · intro hmem
    simp only [String.data_append] at hmem
    rcases List.mem_append.mp hmem with h | h
    · rcases List.mem_append.mp h with h | h
      · rcases List.mem_append.mp h with h | h
        · exact hq.1.2 h
        · simp at h
      · exact hq.2.1.2 h
    · exact hq.2.2.2 h

end Audit

namespace Audit

/-! ## Discovered/visited growth lemmas -/

theorem mem_insertUniq (xs : List String) (x u : String)
    (h : u ∈ insertUniq xs x) : u ∈ xs ∨ u = x := by
  unfold insertUniq at h
  split at h
  · exact Or.inl h
  · rcases List.mem_append.mp h with h1 | h1
    · exact Or.inl h1
    · exact Or.inr (by simpa using h1)

theorem insertUniq_length (xs : List String) (x : String) :
    (insertUniq xs x).length ≤ xs.length + 1 := by
  unfold insertUniq
  split
  · omega
  · simp

theorem add_discovered_mem (base : String) (st : AuditState) (link : String) :
    ∀ v ∈ (add_discovered base st link).discovered,
      v ∈ st.discovered ∨ norm_ok base v := by
  intro v hv
  unfold add_discovered at hv
  by_cases h1 : ((urlsplit link).netloc == base || (urlsplit link).netloc == "") = true
  · rw [if_pos h1] at hv
    dsimp only at hv
    split at hv
    · rcases mem_insertUniq _ _ _ hv with h2 | h2
      · exact Or.inl h2
      · subst h2
        refine Or.inr (clean_url_norm_ok base link ?_)
        rcases Bool.or_eq_true _ _ |>.mp h1 with h3 | h3
        · exact Or.inl (by simpa using h3)
        · exact Or.inr (by simpa using h3)
    · exact Or.inl hv
  · rw [if_neg h1] at hv
    exact Or.inl hv

theorem foldl_add_discovered_mem (base : String) (links : List String)
    (st : AuditState) :
    ∀ v ∈ (links.foldl (add_discovered base) st).discovered,
      v ∈ st.discovered ∨ norm_ok base v := by
  induction links generalizing st with
  | nil => exact fun v hv => Or.inl hv
  | cons l ls ih =>
    intro v hv
    rcases ih (add_discovered base st l) v hv with h | h
    · exact add_discovered_mem base st l v h
    · exact Or.inr h

theorem discover_links_mem (env : Env) (p : String) (st : AuditState) :
    ∀ v ∈ (discover_links env p st).discovered,
      v ∈ st.discovered ∨ norm_ok (urlsplit st.url).netloc v := by
  unfold discover_links
  cases env.pageLinks p
  · exact fun v hv => Or.inl hv
  · exact foldl_add_discovered_mem _ _ st

end Audit

namespace Audit

/-! ## Remaining phase lemmas -/

theorem check_security_hygiene_shape (env : Env) (st : AuditState) :
    same_core st (check_security_hygiene env st)
    ∧ (check_security_hygiene env st).visited = st.visited
    ∧ (check_security_hygiene env st).discovered = st.discovered :=
  ⟨⟨rfl, rfl, rfl, rfl, rfl⟩, rfl, rfl⟩

theorem run_accessibility_checks_shape (env : Env) (st : AuditState) :
    same_core st (run_accessibility_checks env st)
    ∧ (run_accessibility_checks env st).visited = st.visited
    ∧ (run_accessibility_checks env st).discovered = st.discovered := by
  unfold run_accessibility_checks
  split
  · exact ⟨same_core_refl st, rfl, rfl⟩
  · split
    · exact ⟨⟨rfl, rfl, rfl, rfl, rfl⟩, rfl, rfl⟩
    · exact ⟨⟨rfl, rfl, rfl, rfl, rfl⟩, rfl, rfl⟩

theorem finalize_shape (st : AuditState) :
    (finalize st).status = AuditStatus.done
    ∧ (finalize st).finished_at_set = true
    ∧ (finalize st).visited = st.visited
    ∧ (finalize st).discovered = st.discovered
    ∧ (finalize st).url = st.url
    ∧ (finalize st).options = st.options :=
  ⟨rfl, rfl, rfl, rfl, rfl, rfl⟩

theorem fail_audit_shape (st : AuditState) (msg : String) :
    (fail_audit st msg).status = AuditStatus.error
    ∧ (fail_audit st msg).finished_at_set = st.finished_at_set
    ∧ (fail_audit st msg).error_message = some msg
    ∧ (fail_audit st msg).progress.stage = "error"
    ∧ (fail_audit st msg).progress.percent = 0
    ∧ (fail_audit st msg).visited = st.visited
    ∧ (fail_audit st msg).discovered = st.discovered :=
  ⟨rfl, rfl, rfl, rfl, rfl, rfl, rfl⟩

end Audit

namespace Audit

/-! ## audit_page lemmas -/

theorem flow_tail (env : Env) (url : String) (fl : UIFlowResult) (X : AuditState) :
    same_core X
      (capture_live_preview env (discover_links env url { X with ui_flows := X.ui_flows ++ [fl] }))
    ∧ (capture_live_preview env (discover_links env url { X with ui_flows := X.ui_flows ++ [fl] })).visited
        = X.visited := by
  have h1 : same_core X ({ X with ui_flows := X.ui_flows ++ [fl] } : AuditState) :=
    ⟨rfl, rfl, rfl, rfl, rfl⟩
  have h2 := discover_links_core env url ({ X with ui_flows := X.ui_flows ++ [fl] } : AuditState)
  have h3 := capture_core env (discover_links env url ({ X with ui_flows := X.ui_flows ++ [fl] } : AuditState))
  exact ⟨same_core_trans h1 (same_core_trans h2.1 h3.1), by rw [h3.2.1, h2.2.1]⟩

theorem audit_page_core (env : Env) (url : String) (st : AuditState) :
    same_core st (audit_page env url st)
    ∧ (audit_page env url st).visited = st.visited := by
  unfold audit_page
  split
  · exact ⟨⟨rfl, rfl, rfl, rfl, rfl⟩, rfl⟩
  · dsimp only
    split
    · refine ⟨same_core_trans ?h1
        (same_core_trans (take_screenshot_core env url _).1 (flow_tail env url _ _).1), ?h2⟩
      case h1 => exact ⟨rfl, rfl, rfl, rfl, rfl⟩
      case h2 => rw [(flow_tail env url _ _).2, (take_screenshot_core env url _).2.1]
    · refine ⟨same_core_trans ?h3 (flow_tail env url _ _).1, ?h4⟩
      case h3 => exact ⟨rfl, rfl, rfl, rfl, rfl⟩
      case h4 => rw [(flow_tail env url _ _).2]

end Audit

namespace Audit

theorem flow_tail_discovered (env : Env) (url : String) (fl : UIFlowResult)
    (X : AuditState) :
    ∀ v ∈ (capture_live_preview env
        (discover_links env url { X with ui_flows := X.ui_flows ++ [fl] })).discovered,
      v ∈ X.discovered ∨ norm_ok (urlsplit X.url).netloc v := by
  intro v hv
  rw [(capture_core env _).2.2.1] at hv
  exact discover_links_mem env url ({ X with ui_flows := X.ui_flows ++ [fl] } : AuditState) v hv

theorem audit_page_discovered (env : Env) (url : String) (st : AuditState) :
    ∀ v ∈ (audit_page env url st).discovered,
      v ∈ st.discovered ∨ norm_ok (urlsplit st.url).netloc v := by
  unfold audit_page
  split
  · exact fun v hv => Or.inl hv
  · dsimp only
    split
    · intro v hv
      rcases flow_tail_discovered env url _ _ v hv with h | h
      · rw [(take_screenshot_core env url _).2.2.1] at h
        exact Or.inl h
      · rw [(take_screenshot_core env url _).1.2.2.1] at h
        exact Or.inr h
    · intro v hv
      rcases flow_tail_discovered env url _ _ v hv with h | h
      · exact Or.inl h
      · exact Or.inr h

theorem flow_tail_ui_flows (env : Env) (url : String) (fl : UIFlowResult)
    (X : AuditState) :
    (capture_live_preview env
        (discover_links env url { X with ui_flows := X.ui_flows ++ [fl] })).ui_flows
      = X.ui_flows ++ [fl] := by
  rw [(capture_core env _).2.2.2, (discover_links_core env url _).2.2]

theorem audit_page_ui_flows (env : Env) (url : String) (st : AuditState)
    (hnav : env.navError url = none) :
    ∃ shotp : Option String,
      (audit_page env url st).ui_flows =
        st.ui_flows ++
          [{ page_url := url,
             status := (page_status_notes (env.pageContent url) (env.navResponse url)).1,
             notes := combine_notes
               (page_status_notes (env.pageContent url) (env.navResponse url)).2
               (if st.options.check_ui_flows then env.probeNotes url else none),
             screenshot_path := shotp,
             load_time_ms := some (env.loadTime url) }] := by
  unfold audit_page
  rw [hnav]
  dsimp only
  split
  · refine ⟨(take_screenshot env url
      ({ st with page_timings := st.page_timings ++
        [{ url := url, dom_content_loaded_ms := some (env.loadTime url) }] } : AuditState)).1, ?_⟩
    rw [flow_tail_ui_flows env url _ _, (take_screenshot_core env url _).2.2.2]
  · exact ⟨none, by rw [flow_tail_ui_flows env url _ _]⟩

end Audit

namespace Audit

/-! ## Crawl loop lemmas -/

theorem crawl_step3_facts (env : Env) (total i : Nat) (url : String) (st : AuditState) :
    same_core st (crawl_step3 env total i url st)
    ∧ (crawl_step3 env total i url st).visited.length ≤ st.visited.length + 1
    ∧ (∀ u ∈ (crawl_step3 env total i url st).visited, u ∈ st.visited ∨ u = url)
    ∧ (∀ v ∈ (crawl_step3 env total i url st).discovered,
        v ∈ st.discovered ∨ norm_ok (urlsplit st.url).netloc v) := by
  have h1 : same_core st (crawl_step1 total i url st) := update_progress_core st _ _ _ _
  have h2 := audit_page_core env url (crawl_step1 total i url st)
  have h2d := audit_page_discovered env url (crawl_step1 total i url st)
  have hcore : same_core st (crawl_step3 env total i url st) := by
    refine same_core_trans (same_core_trans h1 h2.1) ⟨rfl, rfl, rfl, rfl, rfl⟩
  refine ⟨hcore, ?_, ?_, ?_⟩
  · show (insertUniq (crawl_step2 env total i url st).visited url).length ≤ _
    calc (insertUniq (crawl_step2 env total i url st).visited url).length
        ≤ (crawl_step2 env total i url st).visited.length + 1 := insertUniq_length _ _
      _ = st.visited.length + 1 := by
          rw [show (crawl_step2 env total i url st).visited
                = (crawl_step1 total i url st).visited from h2.2]
          rfl
  · intro u hu
    have hu' := mem_insertUniq _ _ _ hu
    rcases hu' with h | h
    · rw [show (crawl_step2 env total i url st).visited
            = (crawl_step1 total i url st).visited from h2.2] at h
      exact Or.inl h
    · exact Or.inr h
  · intro v hv
    have hv' : v ∈ (crawl_step2 env total i url st).discovered := hv
    rcases h2d v hv' with h | h
    · exact Or.inl h
    · refine Or.inr ?_
      rw [show (crawl_step1 total i url st).url = st.url from rfl] at h
      exact h

theorem crawl_step12_facts (env : Env) (total i : Nat) (url : String) (st : AuditState) :
    (same_core st (crawl_step1 total i url st)
     ∧ (crawl_step1 total i url st).visited = st.visited
     ∧ (crawl_step1 total i url st).discovered = st.discovered)
    ∧ (same_core st (crawl_step2 env total i url st)
       ∧ (crawl_step2 env total i url st).visited = st.visited
       ∧ (∀ v ∈ (crawl_step2 env total i url st).discovered,
           v ∈ st.discovered ∨ norm_ok (urlsplit st.url).netloc v)) := by
  have h1 : same_core st (crawl_step1 total i url st) := update_progress_core st _ _ _ _
  have h2 := audit_page_core env url (crawl_step1 total i url st)
  have h2d := audit_page_discovered env url (crawl_step1 total i url st)
  refine ⟨⟨h1, rfl, rfl⟩, same_core_trans h1 h2.1, h2.2, ?_⟩
  intro v hv
  exact h2d v hv

theorem crawl_loop_facts (env : Env) (total : Nat) (i : Nat) (urls : List String)
    (st : AuditState) :
    (same_core st (crawl_loop env total i urls st).1
     ∧ (crawl_loop env total i urls st).1.visited.length ≤ st.visited.length + urls.length
     ∧ (∀ u ∈ (crawl_loop env total i urls st).1.visited, u ∈ st.visited ∨ u ∈ urls)
     ∧ (∀ v ∈ (crawl_loop env total i urls st).1.discovered,
         v ∈ st.discovered ∨ norm_ok (urlsplit st.url).netloc v))
    ∧ (∀ s ∈ (crawl_loop env total i urls st).2,
        same_core st s
        ∧ s.visited.length ≤ st.visited.length + urls.length
        ∧ (∀ u ∈ s.visited, u ∈ st.visited ∨ u ∈ urls)
        ∧ (∀ v ∈ s.discovered, v ∈ st.discovered ∨ norm_ok (urlsplit st.url).netloc v)) := by
  induction urls generalizing st i with
  | nil =>
    refine ⟨⟨same_core_refl st, by simp [crawl_loop], ?_, ?_⟩, ?_⟩
    · exact fun u hu => Or.inl hu
    · exact fun v hv => Or.inl hv
    · intro s hs
      simp [crawl_loop] at hs
  | cons url rest ih =>
    have h3 := crawl_step3_facts env total i url st
    have h12 := crawl_step12_facts env total i url st
    have hih := ih (i + 1) (crawl_step3 env total i url st)
    have hurl : (crawl_step3 env total i url st).url = st.url := h3.1.2.2.1
    -- lift ih facts from st3 to st
    have lift : ∀ s : AuditState,
        (same_core (crawl_step3 env total i url st) s
         ∧ s.visited.length ≤ (crawl_step3 env total i url st).visited.length + rest.length
         ∧ (∀ u ∈ s.visited, u ∈ (crawl_step3 env total i url st).visited ∨ u ∈ rest)
         ∧ (∀ v ∈ s.discovered, v ∈ (crawl_step3 env total i url st).discovered
             ∨ norm_ok (urlsplit (crawl_step3 env total i url st).url).netloc v)) →
        same_core st s
        ∧ s.visited.length ≤ st.visited.length + (url :: rest).length
        ∧ (∀ u ∈ s.visited, u ∈ st.visited ∨ u ∈ url :: rest)
        ∧ (∀ v ∈ s.discovered, v ∈ st.discovered ∨ norm_ok (urlsplit st.url).netloc v) := by
      intro s hfacts
      refine ⟨same_core_trans h3.1 hfacts.1, ?_, ?_, ?_⟩
      · calc s.visited.length
            ≤ (crawl_step3 env total i url st).visited.length + rest.length := hfacts.2.1
          _ ≤ (st.visited.length + 1) + rest.length := by
              have := h3.2.1; omega
          _ = st.visited.length + (url :: rest).length := by simp; omega
      · intro u hu
        rcases hfacts.2.2.1 u hu with h | h
        · rcases h3.2.2.1 u h with h' | h'
          · exact Or.inl h'
          · exact Or.inr (by simp [h'])
        · exact Or.inr (by simp [h])
      · intro v hv
        rcases hfacts.2.2.2 v hv with h | h
        · exact h3.2.2.2 v h
        · rw [hurl] at h
          exact Or.inr h
    constructor
    · exact lift _ hih.1
    · intro s hs
      have hs' : s = crawl_step1 total i url st ∨ s = crawl_step2 env total i url st
          ∨ s = crawl_step3 env total i url st
          ∨ s ∈ (crawl_loop env total (i + 1) rest (crawl_step3 env total i url st)).2 := by
        simpa [crawl_loop] using hs
      rcases hs' with rfl | rfl | rfl | hmem
      · refine ⟨h12.1.1, ?_, ?_, ?_⟩
        · rw [h12.1.2.1]; simp
        · intro u hu
          rw [h12.1.2.1] at hu
          exact Or.inl hu
        · intro v hv
          rw [h12.1.2.2] at hv
          exact Or.inl hv
      · refine ⟨h12.2.1, ?_, ?_, ?_⟩
        · rw [h12.2.2.1]; simp
        · intro u hu
          rw [h12.2.2.1] at hu
          exact Or.inl hu
        · exact fun v hv => h12.2.2.2 v hv
      · refine ⟨h3.1, ?_, ?_, h3.2.2.2⟩
        · have := h3.2.1; simp; omega
        · intro u hu
          rcases h3.2.2.1 u hu with h | h
          · exact Or.inl h
          · exact Or.inr (by simp [h])
      · exact lift s (hih.2 s hmem)

end Audit

namespace Audit

/-! ## crawl_and_audit lemmas -/

theorem pages_to_visit_length (s : AuditState) :
    (pages_to_visit s).length ≤ s.options.max_pages - 1 := by
  unfold pages_to_visit
  exact List.length_take_le _ _

theorem pages_to_visit_sub (s : AuditState) :
    ∀ u ∈ pages_to_visit s, u ∈ s.discovered := by
  intro u hu
  unfold pages_to_visit at hu
  exact List.mem_of_mem_filter (List.mem_of_mem_take hu)

theorem pages_to_visit_one (s : AuditState) (h : s.options.max_pages = 1) :
    pages_to_visit s = [] := by
  unfold pages_to_visit
  rw [h]
  simp

theorem crawl_and_audit_facts (env : Env) (st : AuditState) :
    (same_core st (crawl_and_audit env st).1
     ∧ (crawl_and_audit env st).1.visited.length
         ≤ st.visited.length + (st.options.max_pages - 1)
     ∧ (∀ u ∈ (crawl_and_audit env st).1.visited,
         u ∈ st.visited ∨ u ∈ st.discovered ∨ norm_ok (urlsplit st.url).netloc u)
     ∧ (∀ v ∈ (crawl_and_audit env st).1.discovered,
         v ∈ st.discovered ∨ norm_ok (urlsplit st.url).netloc v))
    ∧ (∀ s ∈ (crawl_and_audit env st).2,
        same_core st s
        ∧ s.visited.length ≤ st.visited.length + (st.options.max_pages - 1)
        ∧ (∀ u ∈ s.visited,
            u ∈ st.visited ∨ u ∈ st.discovered ∨ norm_ok (urlsplit st.url).netloc u)
        ∧ (∀ v ∈ s.discovered,
            v ∈ st.discovered ∨ norm_ok (urlsplit st.url).netloc v)) := by
  unfold crawl_and_audit
  dsimp only
  have h0 : same_core st
      (update_progress st "crawling" 20 none (some "Discovering pages...")) :=
    update_progress_core st _ _ _ _
  set st0 := update_progress st "crawling" 20 none (some "Discovering pages...") with hst0
  have hd := discover_links_core env st0.url st0
  have hdm := discover_links_mem env st0.url st0
  set st1 := discover_links env st0.url st0 with hst1
  have hcore1 : same_core st st1 := same_core_trans h0 hd.1
  have hv1 : st1.visited = st.visited := hd.2.1
  have hu1 : st1.url = st.url := hcore1.2.2.1
  have hdm' : ∀ v ∈ st1.discovered,
      v ∈ st.discovered ∨ norm_ok (urlsplit st.url).netloc v := fun v hv => hdm v hv
  have hopts : st1.options = st.options := hcore1.2.2.2.1
  have hlen : (pages_to_visit st1).length ≤ st.options.max_pages - 1 := by
    have := pages_to_visit_length st1
    rw [hopts] at this
    exact this
  have hsub := pages_to_visit_sub st1
  have hcl := crawl_loop_facts env (pages_to_visit st1).length 0 (pages_to_visit st1) st1
  have lift : ∀ s : AuditState,
      (same_core st1 s
       ∧ s.visited.length ≤ st1.visited.length + (pages_to_visit st1).length
       ∧ (∀ u ∈ s.visited, u ∈ st1.visited ∨ u ∈ pages_to_visit st1)
       ∧ (∀ v ∈ s.discovered, v ∈ st1.discovered
           ∨ norm_ok (urlsplit st1.url).netloc v)) →
      same_core st s
      ∧ s.visited.length ≤ st.visited.length + (st.options.max_pages - 1)
      ∧ (∀ u ∈ s.visited,
          u ∈ st.visited ∨ u ∈ st.discovered ∨ norm_ok (urlsplit st.url).netloc u)
      ∧ (∀ v ∈ s.discovered,
          v ∈ st.discovered ∨ norm_ok (urlsplit st.url).netloc v) := by
    intro s hf
    refine ⟨same_core_trans hcore1 hf.1, ?_, ?_, ?_⟩
    · have := hf.2.1
      rw [hv1] at this
      omega
    · intro u hu
      rcases hf.2.2.1 u hu with h | h
      · rw [hv1] at h
        exact Or.inl h
      · rcases hdm' u (hsub u h) with h' | h'
        · exact Or.inr (Or.inl h')
        · exact Or.inr (Or.inr h')
    · intro v hv
      rcases hf.2.2.2 v hv with h | h
      · exact hdm' v h
      · rw [hu1] at h
        exact Or.inr h
  constructor
  · exact lift _ hcl.1
  · intro s hs
    rcases List.mem_cons.mp hs with rfl | hs'
    · refine ⟨h0, ?_, ?_, ?_⟩
      · rw [show st0.visited = st.visited from rfl]
        omega
      · intro u hu
        rw [show st0.visited = st.visited from rfl] at hu
        exact Or.inl hu
      · intro v hv
        rw [show st0.discovered = st.discovered from rfl] at hv
        exact Or.inl hv
    · rcases List.mem_cons.mp hs' with rfl | hs''
      · refine ⟨hcore1, ?_, ?_, ?_⟩
        · rw [hv1]; omega
        · intro u hu
          rw [hv1] at hu
          exact Or.inl hu
        · intro v hv
          exact hdm' v hv
      · exact lift s (hcl.2 s hs'')

end Audit

namespace Audit

/-! ## Run trace decomposition -/

theorem runTrace_cases (env : Env) (st0 s : AuditState)
    (hs : s ∈ runTrace env st0) :
    s = st0 ∨ s = stage_start st0
    ∨ (∃ e, s = fail_audit (stage_start st0) e)
    ∨ s = stage_avail env st0
    ∨ s ∈ (stage_crawl env st0).2
    ∨ s = (stage_crawl env st0).1
    ∨ s = stage_sec env st0
    ∨ s = stage_acc env st0
    ∨ s = stage_fin env st0 := by
  unfold runTrace at hs
  cases hm : env.mintError with
  | some e =>
    simp only [hm, List.mem_cons, List.not_mem_nil, or_false] at hs
    rcases hs with rfl | rfl | rfl
    · exact Or.inl rfl
    · exact Or.inr (Or.inl rfl)
    · exact Or.inr (Or.inr (Or.inl ⟨e, rfl⟩))
  | none =>
    cases hp : env.newPageError with
    | some e =>
      simp only [hm, hp, List.mem_cons, List.not_mem_nil, or_false] at hs
      rcases hs with rfl | rfl | rfl
      · exact Or.inl rfl
      · exact Or.inr (Or.inl rfl)
      · exact Or.inr (Or.inr (Or.inl ⟨e, rfl⟩))
    | none =>
      simp only [hm, hp, List.mem_append, List.mem_cons, List.not_mem_nil,
        or_false] at hs
      tauto

theorem stage_core_facts (env : Env) (st0 : AuditState) :
    same_core (stage_start st0) (stage_avail env st0)
    ∧ same_core (stage_start st0) (stage_crawl env st0).1
    ∧ (∀ s ∈ (stage_crawl env st0).2, same_core (stage_start st0) s)
    ∧ same_core (stage_start st0) (stage_sec env st0)
    ∧ same_core (stage_start st0) (stage_acc env st0) := by
  have h1 := check_initial_availability_core env (stage_start st0)
  have h2 := crawl_and_audit_facts env (stage_avail env st0)
  have h3 := check_security_hygiene_shape env (stage_crawl env st0).1
  have h4 := run_accessibility_checks_shape env (stage_sec env st0)
  refine ⟨h1.1, same_core_trans h1.1 h2.1.1, ?_, ?_, ?_⟩
  · intro s hs
    exact same_core_trans h1.1 (h2.2 s hs).1
  · exact same_core_trans (same_core_trans h1.1 h2.1.1) h3.1
  · exact same_core_trans (same_core_trans (same_core_trans h1.1 h2.1.1) h3.1) h4.1

end Audit

namespace Audit

/-- C2 (amended): at every observable moment of a run, finished_at is
set exactly when the status is done: the normal completion sets status
done and finished_at together; a fatal failure sets status error but
leaves finished_at unset; and finished_at is never set while the status
is queued or running. -/
theorem finished_at_iff_done (env : Env) (aid sid url : String) (opts : AuditOptions) :
    ∀ s ∈ runTrace env (initState aid sid url opts),
      (s.finished_at_set = true ↔ s.status = AuditStatus.done) := by
  intro s hs
  have base : ∀ t, same_core (stage_start (initState aid sid url opts)) t →
      (t.finished_at_set = true ↔ t.status = AuditStatus.done) := by
    intro t ht
    rw [ht.2.1, ht.1]
    simp [stage_start, update_progress, initState]
  have hfacts := stage_core_facts env (initState aid sid url opts)
  rcases runTrace_cases env _ s hs with
    rfl | rfl | ⟨e, rfl⟩ | rfl | hmem | rfl | rfl | rfl | rfl
  · simp [initState]
  · exact base _ (same_core_refl _)
  · have hf := fail_audit_shape (stage_start (initState aid sid url opts)) e
    rw [hf.2.1, hf.1]
    simp [stage_start, update_progress, initState]
  · exact base _ hfacts.1
  · exact base _ (hfacts.2.2.1 s hmem)
  · exact base _ hfacts.2.1
  · exact base _ hfacts.2.2.2.1
  · exact base _ hfacts.2.2.2.2
  · have hf := finalize_shape (stage_acc env (initState aid sid url opts))
    unfold stage_fin
    rw [hf.2.1, hf.1]
    simp

/-- Witness for `finished_at_iff_done`: the final state of a clean run. -/
theorem finished_at_iff_done_witness :
    ((stage_fin quietEnv (initState "a" "s" "http://example.com/" {})).finished_at_set = true
      ↔ (stage_fin quietEnv (initState "a" "s" "http://example.com/" {})).status
          = AuditStatus.done) :=
  finished_at_iff_done quietEnv "a" "s" "http://example.com/" {}
    (stage_fin quietEnv (initState "a" "s" "http://example.com/" {}))
    (by simp [runTrace, quietEnv])

/-- C2 counterexample: with a raised context mint the run ends with
status error while finished_at is still unset, so "finished_at is set
iff status is done or error" fails on the code. -/
theorem finished_at_error_counterexample :
    (run mintFailEnv (initState "a" "s" "http://example.com/" {})).status = AuditStatus.error
    ∧ (run mintFailEnv (initState "a" "s" "http://example.com/" {})).finished_at_set = false
    ∧ ¬ ((run mintFailEnv (initState "a" "s" "http://example.com/" {})).finished_at_set = true
        ↔ ((run mintFailEnv (initState "a" "s" "http://example.com/" {})).status = AuditStatus.done
           ∨ (run mintFailEnv (initState "a" "s" "http://example.com/" {})).status
               = AuditStatus.error)) := by
  refine ⟨rfl, rfl, ?_⟩
  intro h
  have ht : (run mintFailEnv (initState "a" "s" "http://example.com/" {})).finished_at_set
      = true := h.mpr (Or.inr rfl)
  have hf : (run mintFailEnv (initState "a" "s" "http://example.com/" {})).finished_at_set
      = false := rfl
  rw [hf] at ht
  exact absurd ht (by decide)

end Audit

namespace Audit

/-- C3: a run ends with status error exactly when minting the
authenticated context or opening the first page raises — every other
failure (navigation, discovery, screenshots, cookies, accessibility,
previews, probing) is absorbed by the environment-tolerant phases and
the run still finishes done; on a fatal failure the error message is
recorded and progress resets to stage "error" at percent 0. -/
theorem fatal_only_mint_or_page_open (env : Env) (aid sid url : String)
    (opts : AuditOptions) :
    ((run env (initState aid sid url opts)).status = AuditStatus.error
      ↔ (env.mintError.isSome ∨ env.newPageError.isSome))
    ∧ (∀ e, env.mintError = some e →
        (run env (initState aid sid url opts)).error_message = some e
        ∧ (run env (initState aid sid url opts)).progress.stage = "error"
        ∧ (run env (initState aid sid url opts)).progress.percent = 0)
    ∧ (env.mintError = none → ∀ e, env.newPageError = some e →
        (run env (initState aid sid url opts)).error_message = some e
        ∧ (run env (initState aid sid url opts)).progress.stage = "error"
        ∧ (run env (initState aid sid url opts)).progress.percent = 0)
    ∧ (env.mintError = none → env.newPageError = none →
        (run env (initState aid sid url opts)).status = AuditStatus.done) := by
  cases hm : env.mintError with
  | some e =>
    refine ⟨?_, ?_, ?_, ?_⟩
    · simp only [run, hm]
      constructor
      · intro _; exact Or.inl (by simp [hm])
      · intro _; exact (fail_audit_shape _ e).1
    · intro e' he'
      cases he'
      simp only [run, hm]
      exact ⟨(fail_audit_shape _ e).2.2.1, (fail_audit_shape _ e).2.2.2.1,
        (fail_audit_shape _ e).2.2.2.2.1⟩
    · intro hnone
      cases hnone
    · intro hnone
      cases hnone
  | none =>
    cases hp : env.newPageError with
    | some e =>
      refine ⟨?_, ?_, ?_, ?_⟩
      · simp only [run, hm, hp]
        constructor
        · intro _
          exact Or.inr (by simp [hp])
        · intro _
          exact (fail_audit_shape _ e).1
      · intro e' he'
        cases he'
      · intro _ e' he'
        cases he'
        simp only [run, hm, hp]
        exact ⟨(fail_audit_shape _ e).2.2.1, (fail_audit_shape _ e).2.2.2.1,
          (fail_audit_shape _ e).2.2.2.2.1⟩
      · intro _ hnone
        cases hnone
    | none =>
      have hdone : (run env (initState aid sid url opts)).status = AuditStatus.done := by
        simp only [run, hm, hp]
        exact (finalize_shape _).1
      refine ⟨?_, ?_, ?_, fun _ _ => hdone⟩
      · rw [hdone]
        simp
      · intro e' he'
        cases he'
      · intro _ e' he'
        cases he'

/-- Witness for `fatal_only_mint_or_page_open`: a raised mint aborts
the run with the message recorded and progress reset. -/
theorem fatal_only_mint_or_page_open_witness :
    (run mintFailEnv (initState "a" "s" "http://example.com/" {})).error_message
        = some "mint failed"
    ∧ (run mintFailEnv (initState "a" "s" "http://example.com/" {})).progress.stage = "error"
    ∧ (run mintFailEnv (initState "a" "s" "http://example.com/" {})).progress.percent = 0 :=
  (fatal_only_mint_or_page_open mintFailEnv "a" "s" "http://example.com/" {}).2.1
    "mint failed" rfl

end Audit

namespace Audit

/-- C4: at every observable moment of a run with max_pages ≥ 1, the
visited set holds at most max_pages URLs — the crawl selects at most
max_pages − 1 fresh URLs beyond the target — and with max_pages = 1 the
crawl's selection is empty. -/
theorem visited_bounded (env : Env) (aid sid url : String) (opts : AuditOptions)
    (hmp : 1 ≤ opts.max_pages) :
    (∀ s ∈ runTrace env (initState aid sid url opts),
      s.visited.length ≤ opts.max_pages)
    ∧ (∀ st : AuditState, st.options.max_pages = 1 → pages_to_visit st = []) := by
  refine ⟨?_, fun st h1 => pages_to_visit_one st h1⟩
  intro s hs
  have h1 := check_initial_availability_core env (stage_start (initState aid sid url opts))
  have h2 := crawl_and_audit_facts env (stage_avail env (initState aid sid url opts))
  have hstart_vis : (stage_start (initState aid sid url opts)).visited = [] := rfl
  have havail_len : (stage_avail env (initState aid sid url opts)).visited.length ≤ 1 := by
    rcases h1.2.2 with heq | heq
    · rw [show (stage_avail env (initState aid sid url opts)).visited
            = (stage_start (initState aid sid url opts)).visited from heq, hstart_vis]
      simp
    · rw [show (stage_avail env (initState aid sid url opts)).visited
            = insertUniq (stage_start (initState aid sid url opts)).visited
                (stage_start (initState aid sid url opts)).url from heq]
      have := insertUniq_length (stage_start (initState aid sid url opts)).visited
        (stage_start (initState aid sid url opts)).url
      rw [hstart_vis] at this
      simpa using this
  have havail_opts : (stage_avail env (initState aid sid url opts)).options = opts :=
    h1.1.2.2.2.1
  have hcrawl_bound : ∀ t : AuditState,
      t.visited.length
        ≤ (stage_avail env (initState aid sid url opts)).visited.length
          + ((stage_avail env (initState aid sid url opts)).options.max_pages - 1) →
      t.visited.length ≤ opts.max_pages := by
    intro t ht
    rw [havail_opts] at ht
    omega
  have hsec := check_security_hygiene_shape env (stage_crawl env (initState aid sid url opts)).1
  have hacc := run_accessibility_checks_shape env (stage_sec env (initState aid sid url opts))
  have hfin := finalize_shape (stage_acc env (initState aid sid url opts))
  have hcrawl1 : (stage_crawl env (initState aid sid url opts)).1.visited.length
      ≤ opts.max_pages := hcrawl_bound _ h2.1.2.1
  rcases runTrace_cases env _ s hs with
    rfl | rfl | ⟨e, rfl⟩ | rfl | hmem | rfl | rfl | rfl | rfl
  · rw [show (initState aid sid url opts).visited = [] from rfl]
    simp
  · rw [hstart_vis]
    simp
  · rw [(fail_audit_shape _ e).2.2.2.2.2.1, hstart_vis]
    simp
  · omega
  · exact hcrawl_bound s (h2.2 s hmem).2.1
  · exact hcrawl1
  · unfold stage_sec
    rw [hsec.2.1]
    exact hcrawl1
  · unfold stage_acc
    rw [hacc.2.1]
    unfold stage_sec
    rw [hsec.2.1]
    exact hcrawl1
  · unfold stage_fin
    rw [hfin.2.2.1]
    unfold stage_acc
    rw [hacc.2.1]
    unfold stage_sec
    rw [hsec.2.1]
    exact hcrawl1

/-- Witness for `visited_bounded`: a clean run over a single target with
the default options (max_pages = 20), checked at the created record. -/
theorem visited_bounded_witness :
    ((initState "a" "s" "http://example.com/" {}).visited.length
        ≤ ({} : AuditOptions).max_pages)
    ∧ pages_to_visit { initState "a" "s" "http://example.com/" {} with
        options := { max_pages := 1 } } = [] := by
  constructor
  · exact (visited_bounded quietEnv "a" "s" "http://example.com/" {} (by decide)).1
      (initState "a" "s" "http://example.com/" {}) (by simp [runTrace, quietEnv])
  · exact (visited_bounded quietEnv "a" "s" "http://example.com/" {} (by decide)).2
      _ rfl

end Audit

namespace Audit

/-- C5 (amended): at every observable moment, every discovered URL is a
normalized scheme://netloc/path string with no query or fragment whose
netloc is the base domain or empty, and every visited URL is either the
verbatim initial target or such a normalized URL. -/
theorem links_normalized (env : Env) (aid sid url : String) (opts : AuditOptions) :
    ∀ s ∈ runTrace env (initState aid sid url opts),
      (∀ u ∈ s.discovered, norm_ok (urlsplit url).netloc u)
      ∧ (∀ u ∈ s.visited, u = url ∨ norm_ok (urlsplit url).netloc u) := by
  intro s hs
  have h1 : same_core (stage_start (initState aid sid url opts))
        (stage_avail env (initState aid sid url opts))
      ∧ (stage_avail env (initState aid sid url opts)).discovered
          = (stage_start (initState aid sid url opts)).discovered
      ∧ ((stage_avail env (initState aid sid url opts)).visited
            = (stage_start (initState aid sid url opts)).visited
         ∨ (stage_avail env (initState aid sid url opts)).visited
            = insertUniq (stage_start (initState aid sid url opts)).visited
                (stage_start (initState aid sid url opts)).url) :=
    check_initial_availability_core env (stage_start (initState aid sid url opts))
  have h2 := crawl_and_audit_facts env (stage_avail env (initState aid sid url opts))
  have hstart_vis : (stage_start (initState aid sid url opts)).visited = [] := rfl
  have hstart_dis : (stage_start (initState aid sid url opts)).discovered = [] := rfl
  have hstart_url : (stage_start (initState aid sid url opts)).url = url := rfl
  have havail_dis : (stage_avail env (initState aid sid url opts)).discovered = [] := by
    rw [h1.2.1, hstart_dis]
  have havail_url : (stage_avail env (initState aid sid url opts)).url = url :=
    h1.1.2.2.1.trans hstart_url
  have havail_vis : ∀ u ∈ (stage_avail env (initState aid sid url opts)).visited,
      u = url := by
    intro u hu
    rcases h1.2.2 with heq | heq
    · rw [heq, hstart_vis] at hu
      cases hu
    · rw [heq] at hu
      rcases mem_insertUniq _ _ _ hu with h | h
      · rw [hstart_vis] at h
        cases h
      · exact h.trans hstart_url
  have lift : ∀ t : AuditState,
      ((∀ u ∈ t.visited, u ∈ (stage_avail env (initState aid sid url opts)).visited
          ∨ u ∈ (stage_avail env (initState aid sid url opts)).discovered
          ∨ norm_ok (urlsplit (stage_avail env (initState aid sid url opts)).url).netloc u)
       ∧ (∀ v ∈ t.discovered,
           v ∈ (stage_avail env (initState aid sid url opts)).discovered
           ∨ norm_ok (urlsplit (stage_avail env (initState aid sid url opts)).url).netloc v)) →
      (∀ u ∈ t.discovered, norm_ok (urlsplit url).netloc u)
      ∧ (∀ u ∈ t.visited, u = url ∨ norm_ok (urlsplit url).netloc u) := by
    intro t ht
    constructor
    · intro u hu
      rcases ht.2 u hu with h | h
      · rw [havail_dis] at h
        cases h
      · rw [havail_url] at h
        exact h
    · intro u hu
      rcases ht.1 u hu with h | h | h
      · exact Or.inl (havail_vis u h)
      · rw [havail_dis] at h
        cases h
      · rw [havail_url] at h
        exact Or.inr h
  have hsec := check_security_hygiene_shape env (stage_crawl env (initState aid sid url opts)).1
  have hacc := run_accessibility_checks_shape env (stage_sec env (initState aid sid url opts))
  have hfin := finalize_shape (stage_acc env (initState aid sid url opts))
  have hcrawl1 := lift _ ⟨h2.1.2.2.1, h2.1.2.2.2⟩
  rcases runTrace_cases env _ s hs with
    rfl | rfl | ⟨e, rfl⟩ | rfl | hmem | rfl | rfl | rfl | rfl
  · constructor
    · intro u hu
      rw [show (initState aid sid url opts).discovered = [] from rfl] at hu
      cases hu
    · intro u hu
      rw [show (initState aid sid url opts).visited = [] from rfl] at hu
      cases hu
  · constructor
    · intro u hu
      rw [hstart_dis] at hu
      cases hu
    · intro u hu
      rw [hstart_vis] at hu
      cases hu
  · constructor
    · intro u hu
      rw [(fail_audit_shape _ e).2.2.2.2.2.2, hstart_dis] at hu
      cases hu
    · intro u hu
      rw [(fail_audit_shape _ e).2.2.2.2.2.1, hstart_vis] at hu
      cases hu
  · constructor
    · intro u hu
      rw [havail_dis] at hu
      cases hu
    · intro u hu
      exact Or.inl (havail_vis u hu)
  · exact lift s ⟨(h2.2 s hmem).2.2.1, (h2.2 s hmem).2.2.2⟩
  · exact hcrawl1
  · unfold stage_sec
    rw [hsec.2.2, hsec.2.1]
    exact hcrawl1
  · unfold stage_acc
    rw [hacc.2.2, hacc.2.1]
    unfold stage_sec
    rw [hsec.2.2, hsec.2.1]
    exact hcrawl1
  · unfold stage_fin
    rw [hfin.2.2.2.1, hfin.2.2.1]
    unfold stage_acc
    rw [hacc.2.2, hacc.2.1]
    unfold stage_sec
    rw [hsec.2.2, hsec.2.1]
    exact hcrawl1

/-- Witness for `links_normalized`: the final state of a clean run over
a target that links to a relative page. -/
theorem links_normalized_witness :
    (∀ u ∈ (stage_fin quietEnv (initState "a" "s" "http://example.com/" {})).discovered,
      norm_ok (urlsplit "http://example.com/").netloc u)
    ∧ (∀ u ∈ (stage_fin quietEnv (initState "a" "s" "http://example.com/" {})).visited,
        u = "http://example.com/"
        ∨ norm_ok (urlsplit "http://example.com/").netloc u) :=
  links_normalized quietEnv "a" "s" "http://example.com/" {}
    (stage_fin quietEnv (initState "a" "s" "http://example.com/" {}))
    (by simp [runTrace, quietEnv])

/-- C5 counterexample: a target URL carrying a query string is stored
verbatim in the visited set, so "every URL in visited ∪ discovered is
in normalized form with no query and no fragment" fails on the code. -/
theorem links_normalized_counterexample :
    "http://example.com/a?x=1"
      ∈ (run quietEnv (initState "a" "s" "http://example.com/a?x=1" {})).visited
    ∧ '?' ∈ "http://example.com/a?x=1".data := by
  constructor
  · have hvis : (run quietEnv (initState "a" "s" "http://example.com/a?x=1" {})).visited
        = ["http://example.com/a?x=1"] := by rfl
    rw [hvis]
    exact List.mem_singleton.mpr rfl
  · decide

end Audit

namespace Audit

/-- C8: in the per-page audit (with UI probing disabled, its default),
the appended UIFlowResult carries exactly the classification of
`page_status_notes`; trimmed content under 100 characters yields status
error with notes "Blank or nearly empty page" regardless of the regex
or HTTP status; content of trimmed length at least 100 matching the
error-phrase regex yields status warning with notes "Page contains
error patterns" regardless of the HTTP status; and only otherwise is
the HTTP status honored (status ≥ 400 becomes an error). -/
theorem page_content_classification (env : Env) (url : String) (st : AuditState)
    (hnav : env.navError url = none)
    (hprobe : st.options.check_ui_flows = false) :
    (∃ shotp : Option String,
      (audit_page env url st).ui_flows =
        st.ui_flows ++
          [{ page_url := url,
             status := (page_status_notes (env.pageContent url) (env.navResponse url)).1,
             notes := (page_status_notes (env.pageContent url) (env.navResponse url)).2,
             screenshot_path := shotp,
             load_time_ms := some (env.loadTime url) }])
    ∧ (∀ content : String, ∀ r : Option Int, (py_strip content).length < 100 →
        page_status_notes content r = ("error", some "Blank or nearly empty page"))
    ∧ (∀ content : String, ∀ r : Option Int, 100 ≤ (py_strip content).length →
        error_regex_matches content = true →
        page_status_notes content r = ("warning", some "Page contains error patterns"))
    ∧ (∀ content : String, ∀ sc : Int, 100 ≤ (py_strip content).length →
        error_regex_matches content = false → 400 ≤ sc →
        page_status_notes content (some sc) = ("error", some ("HTTP " ++ toString sc))) := by
  refine ⟨?_, ?_, ?_, ?_⟩
  · have h := audit_page_ui_flows env url st hnav
    rw [hprobe] at h
    simpa [combine_notes] using h
  · intro content r h
    unfold page_status_notes
    simp [h]
  · intro content r h1 h2
    unfold page_status_notes
    simp [h2, Nat.not_lt.mpr h1]
  · intro content sc h1 h2 h3
    unfold page_status_notes
    simp [h2, Nat.not_lt.mpr h1, h3]

/-- Witness for `page_content_classification`: a near-empty page body
classifies as a blank-page error. -/
theorem page_content_classification_witness :
    page_status_notes "<html><body></body></html>" (some 200)
      = ("error", some "Blank or nearly empty page") :=
  (page_content_classification blankPageEnv "http://example.com/"
    (initState "a" "s" "http://example.com/" {}) rfl rfl).2.1
    "<html><body></body></html>" (some 200) (by decide)

end Audit
